import Mathlib

/-!
Shallow embedding of the Sum-Game grid state machine (src/src/App.tsx,
src/src/types.ts, constants file).  Randomness (`Math.random`) is modelled by a
supply of natural numbers consumed left to right, and `generateId` by a fresh
counter `nextId` threaded through the state; all other code is translated
directly from the source.
-/

namespace SumGame

/-- Constant `GRID_ROWS = 10` from the constants file. -/
def GRID_ROWS : Nat := 10

/-- Constant `GRID_COLS = 6` from the constants file. -/
def GRID_COLS : Nat := 6

/-- Constant `INITIAL_ROWS = 4` from the constants file. -/
def INITIAL_ROWS : Nat := 4

/-- Constant `TIME_LIMIT = 10` (seconds for time mode) from the constants file. -/
def TIME_LIMIT : Nat := 10

/-- Constant `TARGET_MIN = 10` from the constants file. -/
def TARGET_MIN : Nat := 10

/-- Constant `TARGET_MAX = 25` from the constants file. -/
def TARGET_MAX : Nat := 25

/-- Enum `GameMode` from types.ts (`CLASSIC = 'classic'`, `TIME = 'time'`). -/
inductive GameMode where
  | CLASSIC
  | TIME
deriving DecidableEq

/-- Interface `BlockData` from types.ts.  The string `id` is modelled as a
natural number drawn from a fresh counter. -/
structure Block where
  id : Nat
  value : Nat
  row : Nat
  col : Nat
  isSelected : Bool
deriving DecidableEq

/-- The grid type `(BlockData | null)[][]`: a list of rows, each a list of
optional blocks. -/
abbrev Grid := List (List (Option Block))

/-- Full component state of `App` (the core fields; presentation-only state
such as `isShaking` and `highScore` is outside the verified core).  `sup` is
the supply of random naturals and `nextId` the id counter. -/
structure GameState where
  mode : Option GameMode
  grid : Grid
  score : Nat
  target : Nat
  selectedIds : List Nat
  isGameOver : Bool
  timeLeft : Nat
  isPaused : Bool
  currentSum : Nat
  nextId : Nat
  sup : List Nat
deriving DecidableEq

/-- `getRandomValue = Math.floor(Math.random() * 9) + 1`, applied to one
drawn natural: always in `[1, 9]`. -/
def getRandomValue (n : Nat) : Nat := n % 9 + 1

/-- `getRandomTarget = Math.floor(Math.random() * (TARGET_MAX - TARGET_MIN + 1)) + TARGET_MIN`,
applied to one drawn natural: always in `[TARGET_MIN, TARGET_MAX]`. -/
def getRandomTarget (n : Nat) : Nat := n % (TARGET_MAX - TARGET_MIN + 1) + TARGET_MIN

/-- Cell access `grid[r][c]` (out-of-range reads yield `none`; the game only
ever indexes inside the 10 x 6 grid). -/
def getCell (g : Grid) (r c : Nat) : Option Block := (g.getD r []).getD c none

/-- The overflow test `prevGrid[0].some(cell => cell !== null)` in `addRow`. -/
def topRowOccupied (g : Grid) : Bool := (g.headD []).any (fun cell => cell.isSome)

/-- Inner column loop `for (let c = ...)` creating `cnt` fresh blocks of row
`r` starting at column `c`: each block gets the next id and a random value.
Mirrors the block literals in `initGame` and `addRow`. -/
def fillRowAux (r : Nat) : Nat → Nat → Nat → List Nat → List (Option Block) × Nat × List Nat
  | 0, _, nid, sup => ([], nid, sup)
  | cnt + 1, c, nid, sup =>
    let b : Block := { id := nid, value := getRandomValue (sup.headD 0), row := r, col := c, isSelected := false }
    let rest := fillRowAux r cnt (c + 1) (nid + 1) sup.tail
    (some b :: rest.1, rest.2.1, rest.2.2)

/-- One freshly generated full row of blocks at row index `r`
(columns `0 .. GRID_COLS - 1`). -/
def fillRow (r : Nat) (nid : Nat) (sup : List Nat) : List (Option Block) × Nat × List Nat :=
  fillRowAux r GRID_COLS 0 nid sup

/-- The all-empty 10 x 6 grid built by `Array.from` in `initGame`. -/
def mkEmptyGrid : Grid := List.replicate GRID_ROWS (List.replicate GRID_COLS none)

/-- Row indices filled by `initGame`: `r` from `GRID_ROWS - 1` down to
`GRID_ROWS - INITIAL_ROWS`, i.e. `[9, 8, 7, 6]`. -/
def initRows : List Nat := (List.range INITIAL_ROWS).map (fun i => GRID_ROWS - 1 - i)

/-- Fills each listed row of the grid with fresh blocks, threading the id
counter and the random supply. -/
def fillRows : List Nat → Grid → Nat → List Nat → Grid × Nat × List Nat
  | [], g, nid, sup => (g, nid, sup)
  | r :: rs, g, nid, sup =>
    let res := fillRow r nid sup
    fillRows rs (g.set r res.1) res.2.1 res.2.2

/-- The grid built by `initGame`: empty grid with the bottom `INITIAL_ROWS`
rows filled. -/
def initGrid (nid : Nat) (sup : List Nat) : Grid × Nat × List Nat :=
  fillRows initRows mkEmptyGrid nid sup

/-- `initGame(selectedMode)`: fresh grid, score 0, fresh target, empty
selection, not game over, timer reset, unpaused. -/
def initGame (m : GameMode) (s : GameState) : GameState :=
  let res := initGrid s.nextId s.sup
  { mode := some m
    grid := res.1
    score := 0
    target := getRandomTarget (res.2.2.headD 0)
    selectedIds := []
    isGameOver := false
    timeLeft := TIME_LIMIT
    isPaused := false
    currentSum := 0
    nextId := res.2.1
    sup := res.2.2.tail }

/-- Row-shift cell update in `addRow`: `{ ...block, row: r }`. -/
def shiftBlockRow (r : Nat) (cell : Option Block) : Option Block :=
  cell.map (fun b => { b with row := r })

/-- The non-overflow body of `addRow`: every row `r < GRID_ROWS - 1` inherits
row `r + 1`'s content with `row` fields updated, and a fresh bottom row is
generated. -/
def addRowGrid (g : Grid) (nid : Nat) (sup : List Nat) : Grid × Nat × List Nat :=
  let bottom := fillRow (GRID_ROWS - 1) nid sup
  (((List.range (GRID_ROWS - 1)).map fun r => (g.getD (r + 1) []).map (shiftBlockRow r)) ++ [bottom.1],
    bottom.2.1, bottom.2.2)

/-- The `setGrid` updater of `addRow`: if the top row has any block, set game
over and leave the grid untouched; otherwise shift up and fill the bottom
row. -/
def addRowBase (s : GameState) : GameState :=
  if topRowOccupied s.grid then { s with isGameOver := true }
  else
    { s with grid := (addRowGrid s.grid s.nextId s.sup).1,
             nextId := (addRowGrid s.grid s.nextId s.sup).2.1,
             sup := (addRowGrid s.grid s.nextId s.sup).2.2 }

/-- `addRow` (the row-injection operation): the grid update followed by the
unconditional `setTimeLeft(TIME_LIMIT)` in time mode. -/
def addRow (s : GameState) : GameState :=
  if s.mode = some GameMode.TIME then { addRowBase s with timeLeft := TIME_LIMIT }
  else addRowBase s

/-- Scan of the gravity loop `for (let r = GRID_ROWS - 1; r > 0; r--)` on one
column: returns the first index `r` (counting down from the given bound) with
`col[r] = null` and `col[r-1] != null`, if any. -/
def scanSwap (col : List (Option Block)) : Nat → Option Nat
  | 0 => none
  | r + 1 =>
    if col.getD (r + 1) none = none ∧ col.getD r none ≠ none then some (r + 1)
    else scanSwap col r

/-- The swap body of `applyGravity`:
`newGrid[r][c] = { ...newGrid[r-1][c], row: r }; newGrid[r-1][c] = null`. -/
def doSwap (col : List (Option Block)) (rr : Nat) : List (Option Block) :=
  let v := (col.getD (rr - 1) none).map fun b => { b with row := rr }
  (col.set rr v).set (rr - 1) none

/-- Fuel for the settling loop.  The source loop terminates because every swap
moves one block down one cell; for a 10-cell column at most 100 swaps can ever
occur, so 101 steps of fuel are provably sufficient. -/
def gravityFuel : Nat := 101

/-- The per-column settling loop of `applyGravity`: repeatedly perform the
first swap found scanning from the bottom (the source restarts the scan via
`r = GRID_ROWS` after each swap) until a full scan finds none.  The boolean is
the `changed` flag. -/
def settleColAux : Nat → List (Option Block) → List (Option Block) × Bool
  | 0, col => (col, false)
  | fuel + 1, col =>
    match scanSwap col (GRID_ROWS - 1) with
    | none => (col, false)
    | some rr => ((settleColAux fuel (doSwap col rr)).1, true)

/-- Settling one column with sufficient fuel. -/
def settleCol (col : List (Option Block)) : List (Option Block) × Bool :=
  settleColAux gravityFuel col

/-- Column `c` of the grid, top to bottom. -/
def getCol (g : Grid) (c : Nat) : List (Option Block) := g.map fun row => row.getD c none

/-- Writing a column back into the grid. -/
def setCol (g : Grid) (c : Nat) (col : List (Option Block)) : Grid :=
  List.zipWith (fun row v => row.set c v) g col

/-- The outer column loop `for (let c = 0; c < GRID_COLS; c++)` of
`applyGravity`; the swaps for column `c` only touch column `c`, so the
in-place loop is the same as settling each column in turn. -/
def gravityFold : List Nat → Grid → Grid × Bool
  | [], g => (g, false)
  | c :: cs, g =>
    let s1 := settleCol (getCol g c)
    let rest := gravityFold cs (setCol g c s1.1)
    (rest.1, s1.2 || rest.2)

/-- `applyGravity(currentGrid)`: returns `{ newGrid, changed }`. -/
def applyGravity (g : Grid) : Grid × Bool := gravityFold (List.range GRID_COLS) g

/-- One cell of the match-removal map:
`block && selectedIds.includes(block.id) ? null : block`. -/
def removeCell (sel : List Nat) : Option Block → Option Block
  | some b => if b.id ∈ sel then none else some b
  | none => none

/-- The match-removal map in the sum-evaluation effect:
`row.map(block => block && selectedIds.includes(block.id) ? null : block)`. -/
def removeSelected (g : Grid) (sel : List Nat) : Grid :=
  g.map fun row => row.map (removeCell sel)

/-- Blocks of one row in order (dropping empty cells). -/
def rowBlocks : List (Option Block) → List Block
  | [] => []
  | none :: rest => rowBlocks rest
  | some b :: rest => b :: rowBlocks rest

/-- All blocks of the grid in row-major order. -/
def blocksOf : Grid → List Block
  | [] => []
  | row :: rows => rowBlocks row ++ blocksOf rows

/-- Ids of the blocks of one row, in order. -/
def rowIds (row : List (Option Block)) : List Nat := (rowBlocks row).map Block.id

/-- Ids of all blocks of the grid, in row-major order. -/
def gridIds (g : Grid) : List Nat := (blocksOf g).map Block.id

/-- The `selectedBlocks` collection of the sum-evaluation effect: blocks
currently in the grid whose id is selected, in row-major order. -/
def selectedBlocks (s : GameState) : List Block :=
  (blocksOf s.grid).filter fun b => decide (b.id ∈ s.selectedIds)

/-- `selectedBlocks.reduce((acc, b) => acc + b.value, 0)`. -/
def selSum (s : GameState) : Nat :=
  (selectedBlocks s).foldl (fun acc b => acc + b.value) 0

/-- The success branch of the sum-evaluation effect (before the classic-mode
row injection): score increased by `10 * matched count`, a new target drawn,
the selected blocks removed and gravity applied, selection cleared. -/
def matchCore (s : GameState) : GameState :=
  { s with
    score := s.score + (selectedBlocks s).length * 10
    target := getRandomTarget (s.sup.headD 0)
    sup := s.sup.tail
    grid := (applyGravity (removeSelected s.grid s.selectedIds)).1
    selectedIds := [] }

/-- The sum-evaluation `useEffect`, as one state transition: compute the sum
of selected present blocks into `currentSum`; on `sum = 0` do nothing; on
`sum = target` resolve the match (and in classic mode immediately `addRow`);
on `sum > target` clear the selection (the net effect of the scheduled 400 ms
clear); otherwise leave the selection pending. -/
def evalStep (s : GameState) : GameState :=
  if selSum s = 0 then { s with currentSum := selSum s }
  else if selSum s = s.target then
    (if s.mode = some GameMode.CLASSIC then addRow (matchCore { s with currentSum := selSum s })
     else matchCore { s with currentSum := selSum s })
  else if s.target < selSum s then { s with currentSum := selSum s, selectedIds := [] }
  else { s with currentSum := selSum s }

/-- The selection flip of `handleBlockClick`: remove the id if present,
otherwise append it. -/
def toggleSelection (sel : List Nat) (id : Nat) : List Nat :=
  if id ∈ sel then sel.filter (fun i => i != id) else sel ++ [id]

/-- `handleBlockClick(id)`: no-op when game over or paused, otherwise flips
membership of `id` in the selection. -/
def handleBlockClick (s : GameState) (id : Nat) : GameState :=
  if s.isGameOver || s.isPaused then s
  else { s with selectedIds := toggleSelection s.selectedIds id }

/-- One block-toggled event: the click handler followed by the sum-evaluation
effect (which re-runs exactly when the selection changed). -/
def toggleEvent (s : GameState) (id : Nat) : GameState :=
  if s.isGameOver || s.isPaused then s
  else evalStep { s with selectedIds := toggleSelection s.selectedIds id }

/-- One timer tick in time mode (the interval only runs while
`mode = TIME && !isGameOver && !isPaused`): at `timeLeft <= 1` it calls
`addRow()` and resets the timer to `TIME_LIMIT`, otherwise it decrements. -/
def tickStep (s : GameState) : GameState :=
  if s.mode = some GameMode.TIME ∧ s.isGameOver = false ∧ s.isPaused = false then
    if s.timeLeft ≤ 1 then { addRow s with timeLeft := TIME_LIMIT }
    else { s with timeLeft := s.timeLeft - 1 }
  else s

/-- The pause button: `setIsPaused(!isPaused)`. -/
def pauseStep (s : GameState) : GameState := { s with isPaused := !s.isPaused }

/-- Grid well-formedness: 10 rows of 6 cells each. -/
def dims (g : Grid) : Prop := g.length = GRID_ROWS ∧ ∀ row ∈ g, row.length = GRID_COLS

/-- Position synchronisation: every stored block's `row`/`col` fields equal
its cell position. -/
def posOkP (g : Grid) : Prop := ∀ r c b, getCell g r c = some b → b.row = r ∧ b.col = c

/-- All block ids of the grid are below the id counter. -/
def idsBelow (g : Grid) (n : Nat) : Prop := ∀ i ∈ gridIds g, i < n

/-- The grid invariant: well-formed dimensions, synchronised positions,
pairwise distinct ids, and ids below the fresh counter. -/
def Inv (s : GameState) : Prop :=
  dims s.grid ∧ posOkP s.grid ∧ (gridIds s.grid).Nodup ∧ idsBelow s.grid s.nextId

/-- States reachable by the operations of the game: initialization, block
toggles (with their evaluation cascade), timer ticks, row injections, and
pause toggles. -/
inductive Reachable : GameState → Prop where
  | init (m : GameMode) (s : GameState) : Reachable (initGame m s)
  | toggle (s : GameState) (id : Nat) : Reachable s → Reachable (toggleEvent s id)
  | tick (s : GameState) : Reachable s → Reachable (tickStep s)
  | injection (s : GameState) : Reachable s → Reachable (addRow s)
  | pause (s : GameState) : Reachable s → Reachable (pauseStep s)

/-- Per-column position synchronisation for column `c`. -/
def colOk (c : Nat) (col : List (Option Block)) : Prop :=
  ∀ r b, col.getD r none = some b → b.row = r ∧ b.col = c

/-- Number of blocks in column `c`. -/
def colCount (g : Grid) (c : Nat) : Nat := (rowBlocks (getCol g c)).length

/-- Termination potential of a column: each block contributes its distance
from the bottom cell; every gravity swap decreases it by one. -/
def pot : List (Option Block) → Nat
  | [] => 0
  | cell :: rest => (if cell.isSome then rest.length else 0) + pot rest

instance (g : Grid) : Decidable (dims g) :=
  inferInstanceAs (Decidable (g.length = GRID_ROWS ∧ ∀ row ∈ g, row.length = GRID_COLS))

/-- A blank pre-game state used to build concrete test states. -/
def st0 : GameState :=
  { mode := none, grid := [], score := 0, target := 0, selectedIds := [],
    isGameOver := false, timeLeft := 10, isPaused := false, currentSum := 0,
    nextId := 0, sup := [] }

/-- A concrete freshly started time-mode game. -/
def stTime : GameState := initGame GameMode.TIME st0

/-- A concrete freshly started classic-mode game. -/
def stClassic : GameState := initGame GameMode.CLASSIC st0

/-- The time-mode start with ten value-1 blocks selected (their sum, 10,
equals the start target). -/
def stSel : GameState := { stTime with selectedIds := [0, 1, 2, 3, 4, 5, 6, 7, 8, 9] }

/-- The classic-mode start with ten value-1 blocks selected. -/
def stSelC : GameState := { stClassic with selectedIds := [0, 1, 2, 3, 4, 5, 6, 7, 8, 9] }

/-- The time-mode start with eleven value-1 blocks selected (their sum, 11,
overshoots the start target 10). -/
def stSel2 : GameState := { stTime with selectedIds := [0, 1, 2, 3, 4, 5, 6, 7, 8, 9, 10] }

/-- A concrete game-over state. -/
def stOver : GameState := { stTime with isGameOver := true }

/-! ### Basic list helpers -/

theorem getD_set_self {α : Type} (l : List α) (n : Nat) (v d : α) (h : n < l.length) :
    (l.set n v).getD n d = v := by
  simp [List.getD, List.getElem?_set_eq_of_lt _ h]

theorem getD_set_ne {α : Type} (l : List α) (i n : Nat) (v d : α) (h : i ≠ n) :
    (l.set n v).getD i d = l.getD i d := by
  simp [List.getD, List.getElem?_set_ne (Ne.symm h)]

theorem set_getD_self {α : Type} (l : List α) (n : Nat) (d : α) (h : n < l.length) :
    l.set n (l.getD n d) = l := by
  induction l generalizing n with
  | nil => simp at h
  | cons x xs ih =>
    cases n with
    | zero => simp
    | succ n => simpa using ih n (by simpa using h)

theorem set_append_right {α : Type} (A l : List α) (k : Nat) (v : α) :
    (A ++ l).set (A.length + k) v = A ++ l.set k v := by
  induction A with
  | nil => simp
  | cons a A ih => simp [Nat.succ_add, ih]

theorem getD_of_le_length {α : Type} (l : List α) (n : Nat) (d : α) (h : l.length ≤ n) :
    l.getD n d = d := by
  simp [List.getD, List.getElem?_eq_none h]

theorem getD_map_opt (f : Block → Block) (l : List (Option Block)) (c : Nat) :
    (l.map (Option.map f)).getD c none = Option.map f (l.getD c none) := by
  induction l generalizing c with
  | nil => simp
  | cons x xs ih =>
    cases c with
    | zero => simp
    | succ n =>
      rw [List.map_cons, List.getD_cons_succ, List.getD_cons_succ]
      exact ih n

theorem getD_range_map {α : Type} (l : List α) (d : α) :
    (List.range l.length).map (fun r => l.getD r d) = l := by
  induction l with
  | nil => simp
  | cons x xs ih =>
    rw [List.length_cons, List.range_succ_eq_map, List.map_cons, List.map_map]
    have h0 : (x :: xs).getD 0 d = x := by simp
    have hc : ((fun r => (x :: xs).getD r d) ∘ Nat.succ) = (fun r => xs.getD r d) := by
      funext r
      simp [Function.comp, List.getD_cons_succ]
    rw [h0, hc, ih]

/-! ### Row and block aggregates -/

theorem rowBlocks_append (l1 l2 : List (Option Block)) :
    rowBlocks (l1 ++ l2) = rowBlocks l1 ++ rowBlocks l2 := by
  induction l1 with
  | nil => simp [rowBlocks]
  | cons x xs ih => cases x <;> simp [rowBlocks, ih]

theorem rowIds_append (l1 l2 : List (Option Block)) :
    rowIds (l1 ++ l2) = rowIds l1 ++ rowIds l2 := by
  simp [rowIds, rowBlocks_append]

theorem blocksOf_append (g1 g2 : Grid) :
    blocksOf (g1 ++ g2) = blocksOf g1 ++ blocksOf g2 := by
  induction g1 with
  | nil => simp [blocksOf]
  | cons row rows ih => simp [blocksOf, ih]

theorem gridIds_append (g1 g2 : Grid) :
    gridIds (g1 ++ g2) = gridIds g1 ++ gridIds g2 := by
  simp [gridIds, blocksOf_append]

theorem gridIds_cons (row : List (Option Block)) (rows : Grid) :
    gridIds (row :: rows) = rowIds row ++ gridIds rows := by
  simp [gridIds, rowIds, blocksOf]

theorem rowBlocks_of_no_some (row : List (Option Block)) (h : row.any (fun cell => cell.isSome) = false) :
    rowBlocks row = [] := by
  induction row with
  | nil => rfl
  | cons x xs ih =>
    cases x with
    | none => simp_all [rowBlocks]
    | some b => simp at h

theorem rowIds_mapRow (f : Block → Block) (hf : ∀ b, (f b).id = b.id)
    (row : List (Option Block)) :
    rowIds (row.map (Option.map f)) = rowIds row := by
  induction row with
  | nil => rfl
  | cons x xs ih =>
    cases x with
    | none => simpa [rowIds, rowBlocks] using ih
    | some b => simp_all [rowIds, rowBlocks]

/-! ### Gravity: per-column lemmas -/

theorem scanSwap_some (col : List (Option Block)) (bound rr : Nat)
    (h : scanSwap col bound = some rr) :
    1 ≤ rr ∧ rr ≤ bound ∧ col.getD rr none = none ∧ col.getD (rr - 1) none ≠ none := by
  induction bound with
  | zero => simp [scanSwap] at h
  | succ r ih =>
    rw [scanSwap] at h
    split at h
    · rename_i hcond
      cases h
      exact ⟨Nat.succ_le_succ (Nat.zero_le r), Nat.le_refl _, hcond.1, by simpa using hcond.2⟩
    · have := ih h
      exact ⟨this.1, Nat.le_succ_of_le this.2.1, this.2.2⟩

theorem scanSwap_none (col : List (Option Block)) (bound : Nat)
    (h : scanSwap col bound = none) (r : Nat) (h1 : 1 ≤ r) (h2 : r ≤ bound) :
    ¬(col.getD r none = none ∧ col.getD (r - 1) none ≠ none) := by
  induction bound with
  | zero => omega
  | succ bd ih =>
    rw [scanSwap] at h
    split at h
    · exact absurd h (by simp)
    · rename_i hcond
      rcases Nat.lt_or_ge r (bd + 1) with hlt | hge
      · exact ih h (by omega)
      · have : r = bd + 1 := by omega
        subst this
        simpa using hcond

theorem col_decomp (col : List (Option Block)) (rr : Nat) (b : Block)
    (h1 : 1 ≤ rr) (h2 : rr < col.length)
    (hr : col.getD rr none = none) (hb : col.getD (rr - 1) none = some b) :
    col = col.take (rr - 1) ++ some b :: none :: col.drop (rr + 1) := by
  have hlt : rr - 1 < col.length := by omega
  have e1 : col.drop (rr - 1) = col[rr - 1] :: col.drop rr := by
    have h := List.drop_eq_getElem_cons hlt (l := col)
    rw [show rr - 1 + 1 = rr from by omega] at h
    exact h
  have e2 : col.drop rr = col[rr] :: col.drop (rr + 1) := List.drop_eq_getElem_cons h2
  have hb' : col[rr - 1] = some b := by rw [← List.getD_eq_getElem col none hlt]; exact hb
  have hr' : col[rr] = none := by rw [← List.getD_eq_getElem col none h2]; exact hr
  calc col = col.take (rr - 1) ++ col.drop (rr - 1) := (List.take_append_drop _ _).symm
    _ = _ := by rw [e1, e2, hb', hr']

theorem doSwap_decomp (col : List (Option Block)) (rr : Nat) (b : Block)
    (h1 : 1 ≤ rr) (h2 : rr < col.length)
    (hr : col.getD rr none = none) (hb : col.getD (rr - 1) none = some b) :
    doSwap col rr = col.take (rr - 1) ++ none :: some { b with row := rr } :: col.drop (rr + 1) := by
  have hA : (col.take (rr - 1)).length = rr - 1 :=
    List.length_take_of_le (by omega)
  have hdec := col_decomp col rr b h1 h2 hr hb
  have hset1 : ∀ v : Option Block,
      (col.take (rr - 1) ++ some b :: none :: col.drop (rr + 1)).set rr v
        = col.take (rr - 1) ++ some b :: v :: col.drop (rr + 1) := by
    intro v
    have hs := set_append_right (col.take (rr - 1)) (some b :: none :: col.drop (rr + 1)) 1 v
    rw [hA] at hs
    rw [show rr - 1 + 1 = rr from by omega] at hs
    rw [hs]
    rfl
  have hset2 : ∀ l : List (Option Block),
      (col.take (rr - 1) ++ l).set (rr - 1) none = col.take (rr - 1) ++ l.set 0 none := by
    intro l
    have hs := set_append_right (col.take (rr - 1)) l 0 none
    rw [hA, Nat.add_zero] at hs
    exact hs
  simp only [doSwap, hb, Option.map_some']
  conv_lhs => rw [hdec]
  rw [hset1, hset2]
  rfl

theorem length_doSwap (col : List (Option Block)) (rr : Nat) :
    (doSwap col rr).length = col.length := by
  simp [doSwap]

theorem pot_append_congr (A l1 l2 : List (Option Block)) (h : l1.length = l2.length) :
    pot (A ++ l1) + pot l2 = pot (A ++ l2) + pot l1 := by
  induction A with
  | nil => simp [Nat.add_comm]
  | cons x xs ih =>
    simp only [List.cons_append, pot, List.append_eq, List.length_append, h]
    omega

theorem pot_doSwap (col : List (Option Block)) (rr : Nat) (b : Block)
    (h1 : 1 ≤ rr) (h2 : rr < col.length)
    (hr : col.getD rr none = none) (hb : col.getD (rr - 1) none = some b) :
    pot (doSwap col rr) + 1 = pot col := by
  rw [doSwap_decomp col rr b h1 h2 hr hb]
  conv_rhs => rw [col_decomp col rr b h1 h2 hr hb]
  have hcong := pot_append_congr (col.take (rr - 1))
    (none :: some { b with row := rr } :: col.drop (rr + 1))
    (some b :: none :: col.drop (rr + 1)) (by simp)
  have e1 : pot (none :: some { b with row := rr } :: col.drop (rr + 1))
      = (col.drop (rr + 1)).length + pot (col.drop (rr + 1)) := by
    simp [pot]
  have e2 : pot (some b :: none :: col.drop (rr + 1))
      = (col.drop (rr + 1)).length + 1 + pot (col.drop (rr + 1)) := by
    simp [pot]
  omega

theorem rowIds_doSwap (col : List (Option Block)) (rr : Nat) (b : Block)
    (h1 : 1 ≤ rr) (h2 : rr < col.length)
    (hr : col.getD rr none = none) (hb : col.getD (rr - 1) none = some b) :
    rowIds (doSwap col rr) = rowIds col := by
  rw [doSwap_decomp col rr b h1 h2 hr hb]
  conv_rhs => rw [col_decomp col rr b h1 h2 hr hb]
  simp [rowIds, rowBlocks_append, rowBlocks]

theorem doSwap_getD (col : List (Option Block)) (rr : Nat)
    (h1 : 1 ≤ rr) (h2 : rr < col.length) (r : Nat) :
    (doSwap col rr).getD r none =
      if r = rr - 1 then none
      else if r = rr then (col.getD (rr - 1) none).map (fun b => { b with row := rr })
      else col.getD r none := by
  simp only [doSwap]
  by_cases hrm : r = rr - 1
  · subst hrm
    rw [if_pos rfl]
    exact getD_set_self _ _ _ _ (by simp; omega)
  · rw [getD_set_ne _ _ _ _ _ hrm, if_neg hrm]
    by_cases hrr : r = rr
    · subst hrr
      rw [if_pos rfl]
      exact getD_set_self _ _ _ _ h2
    · rw [if_neg hrr]
      exact getD_set_ne _ _ _ _ _ hrr

theorem colOk_doSwap (c : Nat) (col : List (Option Block)) (rr : Nat)
    (h1 : 1 ≤ rr) (h2 : rr < col.length)
    (hok : colOk c col) : colOk c (doSwap col rr) := by
  intro r b hget
  rw [doSwap_getD col rr h1 h2 r] at hget
  by_cases hrm : r = rr - 1
  · rw [if_pos hrm] at hget
    exact absurd hget (by simp)
  · rw [if_neg hrm] at hget
    by_cases hrr : r = rr
    · rw [if_pos hrr] at hget
      cases hcell : col.getD (rr - 1) none with
      | none => rw [hcell] at hget; simp at hget
      | some bb =>
        rw [hcell, Option.map_some'] at hget
        have hbb := hok (rr - 1) bb hcell
        have hgeteq : ({ bb with row := rr } : Block) = b := by
          exact Option.some_injective _ hget
        subst hrr
        constructor
        · rw [← hgeteq]
        · rw [← hgeteq]
          exact hbb.2
    · rw [if_neg hrr] at hget
      exact hok r b hget

theorem pot_le_sq (col : List (Option Block)) : pot col ≤ col.length * col.length := by
  induction col with
  | nil => simp [pot]
  | cons x xs ih =>
    simp only [pot, List.length_cons]
    have h2 : (xs.length + 1) * (xs.length + 1) = xs.length * xs.length + 2 * xs.length + 1 := by
      ring
    split <;> omega

theorem exists_some_of_ne_none (o : Option Block) (h : o ≠ none) : ∃ b, o = some b := by
  cases o with
  | none => exact absurd rfl h
  | some b => exact ⟨b, rfl⟩

theorem grid_rows_eq : GRID_ROWS = 10 := rfl

theorem settleColAux_length (fuel : Nat) (col : List (Option Block)) :
    ((settleColAux fuel col).1).length = col.length := by
  induction fuel generalizing col with
  | zero => rfl
  | succ fuel ih =>
    rw [settleColAux]
    cases h : scanSwap col (GRID_ROWS - 1) with
    | none => rfl
    | some rr => simpa [length_doSwap] using ih (doSwap col rr)

theorem settleColAux_rowIds (fuel : Nat) (col : List (Option Block))
    (hlen : col.length = GRID_ROWS) :
    rowIds (settleColAux fuel col).1 = rowIds col := by
  induction fuel generalizing col with
  | zero => rfl
  | succ fuel ih =>
    rw [settleColAux]
    cases h : scanSwap col (GRID_ROWS - 1) with
    | none => rfl
    | some rr =>
      obtain ⟨hr1, hr2, hrn, hrs⟩ := scanSwap_some col _ rr h
      obtain ⟨b, hb⟩ := exists_some_of_ne_none _ hrs
      have h2' : rr < col.length := by
        rw [hlen, grid_rows_eq]
        rw [grid_rows_eq] at hr2
        omega
      have hlen2 : (doSwap col rr).length = GRID_ROWS := by rw [length_doSwap, hlen]
      simp only []
      rw [ih (doSwap col rr) hlen2, rowIds_doSwap col rr b hr1 h2' hrn hb]

theorem settleColAux_colOk (c : Nat) (fuel : Nat) (col : List (Option Block))
    (hlen : col.length = GRID_ROWS) (hok : colOk c col) :
    colOk c (settleColAux fuel col).1 := by
  induction fuel generalizing col with
  | zero => exact hok
  | succ fuel ih =>
    rw [settleColAux]
    cases h : scanSwap col (GRID_ROWS - 1) with
    | none => exact hok
    | some rr =>
      obtain ⟨hr1, hr2, hrn, hrs⟩ := scanSwap_some col _ rr h
      have h2' : rr < col.length := by
        rw [hlen, grid_rows_eq]
        rw [grid_rows_eq] at hr2
        omega
      have hlen2 : (doSwap col rr).length = GRID_ROWS := by rw [length_doSwap, hlen]
      exact ih (doSwap col rr) hlen2 (colOk_doSwap c col rr hr1 h2' hok)

theorem settleColAux_settled (fuel : Nat) (col : List (Option Block))
    (hlen : col.length = GRID_ROWS) (hpot : pot col < fuel) :
    scanSwap (settleColAux fuel col).1 (GRID_ROWS - 1) = none := by
  induction fuel generalizing col with
  | zero => omega
  | succ fuel ih =>
    rw [settleColAux]
    cases h : scanSwap col (GRID_ROWS - 1) with
    | none => exact h
    | some rr =>
      obtain ⟨hr1, hr2, hrn, hrs⟩ := scanSwap_some col _ rr h
      obtain ⟨b, hb⟩ := exists_some_of_ne_none _ hrs
      have h2' : rr < col.length := by
        rw [hlen, grid_rows_eq]
        rw [grid_rows_eq] at hr2
        omega
      have hlen2 : (doSwap col rr).length = GRID_ROWS := by rw [length_doSwap, hlen]
      have hp := pot_doSwap col rr b hr1 h2' hrn hb
      exact ih (doSwap col rr) hlen2 (by omega)

theorem settleCol_settled (col : List (Option Block)) (hlen : col.length = GRID_ROWS) :
    scanSwap (settleCol col).1 (GRID_ROWS - 1) = none := by
  apply settleColAux_settled gravityFuel col hlen
  have h := pot_le_sq col
  rw [hlen, grid_rows_eq] at h
  have : gravityFuel = 101 := rfl
  omega

theorem settleCol_of_settled (col : List (Option Block))
    (h : scanSwap col (GRID_ROWS - 1) = none) : settleCol col = (col, false) := by
  have e : gravityFuel = 100 + 1 := rfl
  rw [settleCol, e, settleColAux, h]

theorem settleCol_length (col : List (Option Block)) :
    ((settleCol col).1).length = col.length := settleColAux_length gravityFuel col

/-! ### Gravity: grid-level lemmas -/

theorem length_getCol (g : Grid) (c : Nat) : (getCol g c).length = g.length := by
  simp [getCol]

theorem getCol_getD (g : Grid) (c r : Nat) :
    (getCol g c).getD r none = (g.getD r []).getD c none := by
  induction g generalizing r with
  | nil => simp [getCol]
  | cons row rows ih =>
    cases r with
    | zero => simp [getCol]
    | succ n => simpa [getCol] using ih n

theorem length_setCol (g : Grid) (c : Nat) (col : List (Option Block))
    (h : col.length = g.length) : (setCol g c col).length = g.length := by
  simp [setCol, List.length_zipWith, h]

theorem setCol_mem (g : Grid) (c : Nat) (col : List (Option Block)) (row' : List (Option Block))
    (h : row' ∈ setCol g c col) : ∃ row ∈ g, ∃ v, row' = row.set c v := by
  induction g generalizing col with
  | nil => simp [setCol] at h
  | cons row rows ih =>
    cases col with
    | nil => simp [setCol] at h
    | cons v vs =>
      rcases List.mem_cons.mp h with heq | hmem
      · exact ⟨row, List.mem_cons_self _ _, v, heq⟩
      · obtain ⟨r0, hr0, v0, hv0⟩ := ih vs hmem
        exact ⟨r0, List.mem_cons_of_mem _ hr0, v0, hv0⟩

theorem dims_setCol (g : Grid) (c : Nat) (col : List (Option Block))
    (hd : dims g) (h : col.length = g.length) : dims (setCol g c col) := by
  refine ⟨by rw [length_setCol _ _ _ h]; exact hd.1, ?_⟩
  intro row' hrow'
  obtain ⟨row, hrow, v, hv⟩ := setCol_mem g c col row' hrow'
  rw [hv, List.length_set]
  exact hd.2 row hrow

theorem getCol_setCol_same (g : Grid) (c : Nat) (col : List (Option Block))
    (h : col.length = g.length) (hc : ∀ row ∈ g, c < row.length) :
    getCol (setCol g c col) c = col := by
  induction g generalizing col with
  | nil => cases col with
    | nil => rfl
    | cons v vs => simp at h
  | cons row rows ih =>
    cases col with
    | nil => simp at h
    | cons v vs =>
      simp only [setCol, List.zipWith_cons_cons, getCol, List.map_cons]
      congr 1
      · exact getD_set_self row c v none (hc row (List.mem_cons_self _ _))
      · exact ih vs (by simpa using h) (fun r hr => hc r (List.mem_cons_of_mem _ hr))

theorem getCol_setCol_ne (g : Grid) (c c' : Nat) (col : List (Option Block))
    (h : col.length = g.length) (hne : c' ≠ c) :
    getCol (setCol g c col) c' = getCol g c' := by
  induction g generalizing col with
  | nil => cases col <;> rfl
  | cons row rows ih =>
    cases col with
    | nil => simp at h
    | cons v vs =>
      simp only [setCol, List.zipWith_cons_cons, getCol, List.map_cons]
      congr 1
      · exact getD_set_ne row c' c v none hne
      · exact ih vs (by simpa using h)

theorem setCol_getCol_self (g : Grid) (c : Nat) (hc : ∀ row ∈ g, c < row.length) :
    setCol g c (getCol g c) = g := by
  induction g with
  | nil => rfl
  | cons row rows ih =>
    simp only [setCol, getCol, List.map_cons, List.zipWith_cons_cons]
    congr 1
    · exact set_getD_self row c none (hc row (List.mem_cons_self _ _))
    · exact ih (fun r hr => hc r (List.mem_cons_of_mem _ hr))

theorem gravityFold_spec (cs : List Nat) (g : Grid) (hd : dims g)
    (hcs : ∀ c ∈ cs, c < GRID_COLS) (hnd : cs.Nodup) :
    dims (gravityFold cs g).1 ∧
      ∀ c', getCol (gravityFold cs g).1 c'
        = if c' ∈ cs then (settleCol (getCol g c')).1 else getCol g c' := by
  induction cs generalizing g with
  | nil => exact ⟨hd, by simp [gravityFold]⟩
  | cons c cs ih =>
    have hrowlt : ∀ row ∈ g, c < row.length := by
      intro row hrow
      rw [hd.2 row hrow]
      exact hcs c (List.mem_cons_self _ _)
    have hlen : ((settleCol (getCol g c)).1).length = g.length := by
      rw [settleCol_length, length_getCol]
    have hd1 : dims (setCol g c (settleCol (getCol g c)).1) := dims_setCol g c _ hd hlen
    have hsame : getCol (setCol g c (settleCol (getCol g c)).1) c = (settleCol (getCol g c)).1 :=
      getCol_setCol_same g c _ hlen hrowlt
    have hne : ∀ c', c' ≠ c → getCol (setCol g c (settleCol (getCol g c)).1) c' = getCol g c' :=
      fun c' h => getCol_setCol_ne g c c' _ hlen h
    obtain ⟨hdr, hcolr⟩ := ih (setCol g c (settleCol (getCol g c)).1) hd1
      (fun x hx => hcs x (List.mem_cons_of_mem _ hx)) (List.Nodup.of_cons hnd)
    have hcnotin : c ∉ cs := (List.nodup_cons.mp hnd).1
    refine ⟨hdr, ?_⟩
    intro c'
    have hfold : (gravityFold (c :: cs) g).1 = (gravityFold cs (setCol g c (settleCol (getCol g c)).1)).1 := rfl
    rw [hfold, hcolr c']
    by_cases hin : c' ∈ cs
    · have hcc : c' ≠ c := fun h => hcnotin (h ▸ hin)
      rw [if_pos hin, if_pos (List.mem_cons_of_mem _ hin), hne c' hcc]
    · rw [if_neg hin]
      by_cases hc' : c' = c
      · subst hc'
        rw [hsame, if_pos (List.mem_cons_self _ _)]
      · rw [hne c' hc', if_neg (by simp [hc', hin])]

theorem gravityFold_of_settled (cs : List Nat) (g : Grid)
    (h : ∀ c ∈ cs, scanSwap (getCol g c) (GRID_ROWS - 1) = none)
    (hc : ∀ c ∈ cs, ∀ row ∈ g, c < row.length) :
    gravityFold cs g = (g, false) := by
  induction cs with
  | nil => rfl
  | cons c cs ih =>
    have hs := settleCol_of_settled (getCol g c) (h c (List.mem_cons_self _ _))
    have hset : setCol g c (settleCol (getCol g c)).1 = g := by
      rw [hs]
      exact setCol_getCol_self g c (hc c (List.mem_cons_self _ _))
    have hrec := ih (fun x hx => h x (List.mem_cons_of_mem _ hx))
      (fun x hx => hc x (List.mem_cons_of_mem _ hx))
    show ((gravityFold cs (setCol g c (settleCol (getCol g c)).1)).1,
        (settleCol (getCol g c)).2 || (gravityFold cs (setCol g c (settleCol (getCol g c)).1)).2)
      = (g, false)
    rw [hset, hrec, hs]
    rfl

theorem dims_applyGravity (g : Grid) (hd : dims g) : dims (applyGravity g).1 :=
  (gravityFold_spec (List.range GRID_COLS) g hd (fun c hc => List.mem_range.mp hc)
    (List.nodup_range _)).1

theorem applyGravity_getCol (g : Grid) (hd : dims g) (c : Nat) (hc : c < GRID_COLS) :
    getCol (applyGravity g).1 c = (settleCol (getCol g c)).1 := by
  have h := (gravityFold_spec (List.range GRID_COLS) g hd (fun x hx => List.mem_range.mp hx)
    (List.nodup_range _)).2 c
  rwa [if_pos (List.mem_range.mpr hc)] at h

/-- Claim C3 auxiliary lemma: after one `applyGravity` every column is settled. -/
theorem applyGravity_settled (g : Grid) (hd : dims g) (c : Nat) (hc : c < GRID_COLS) :
    scanSwap (getCol (applyGravity g).1 c) (GRID_ROWS - 1) = none := by
  rw [applyGravity_getCol g hd c hc]
  apply settleCol_settled
  rw [length_getCol]
  exact hd.1

theorem grid_cols_eq : GRID_COLS = 6 := rfl

theorem rowIds_cons (o : Option Block) (l : List (Option Block)) :
    rowIds (o :: l) = rowIds [o] ++ rowIds l := by
  cases o <;> simp [rowIds, rowBlocks]

theorem rowIds_set (row : List (Option Block)) (c : Nat) (v : Option Block)
    (h : c < row.length) :
    (↑(rowIds (row.set c v)) : Multiset Nat) + ↑(rowIds [row.getD c none])
      = ↑(rowIds row) + ↑(rowIds [v]) := by
  induction row generalizing c with
  | nil => simp at h
  | cons x xs ih =>
    cases c with
    | zero =>
      rw [List.set_cons_zero, rowIds_cons v xs, rowIds_cons x xs, List.getD_cons_zero]
      rw [← Multiset.coe_add, ← Multiset.coe_add]
      abel
    | succ n =>
      rw [List.set_cons_succ, rowIds_cons x (xs.set n v), rowIds_cons x xs, List.getD_cons_succ]
      have hih := ih n (by simpa using h)
      rw [← Multiset.coe_add, ← Multiset.coe_add, add_assoc, add_assoc, hih]

theorem gridIds_set (g : Grid) (r : Nat) (row : List (Option Block)) (h : r < g.length) :
    (↑(gridIds (g.set r row)) : Multiset Nat) + ↑(rowIds (g.getD r []))
      = ↑(gridIds g) + ↑(rowIds row) := by
  induction g generalizing r with
  | nil => simp at h
  | cons row0 rows ih =>
    cases r with
    | zero =>
      rw [List.set_cons_zero, gridIds_cons, gridIds_cons, List.getD_cons_zero]
      rw [← Multiset.coe_add, ← Multiset.coe_add]
      abel
    | succ n =>
      rw [List.set_cons_succ, gridIds_cons, gridIds_cons, List.getD_cons_succ]
      have hih := ih n (by simpa using h)
      rw [← Multiset.coe_add, ← Multiset.coe_add, add_assoc, add_assoc, hih]

theorem gridIds_setCol (g : Grid) (c : Nat) (col : List (Option Block))
    (hlen : col.length = g.length) (hc : ∀ row ∈ g, c < row.length) :
    (↑(gridIds (setCol g c col)) : Multiset Nat) + ↑(rowIds (getCol g c))
      = ↑(gridIds g) + ↑(rowIds col) := by
  induction g generalizing col with
  | nil =>
    cases col with
    | nil => rfl
    | cons v vs => simp at hlen
  | cons row rows ih =>
    cases col with
    | nil => simp at hlen
    | cons v vs =>
      rw [show setCol (row :: rows) c (v :: vs) = row.set c v :: setCol rows c vs from rfl]
      rw [show getCol (row :: rows) c = row.getD c none :: getCol rows c from rfl]
      rw [gridIds_cons, gridIds_cons, rowIds_cons (row.getD c none), rowIds_cons v vs]
      rw [← Multiset.coe_add, ← Multiset.coe_add, ← Multiset.coe_add, ← Multiset.coe_add]
      have h1 := rowIds_set row c v (hc row (List.mem_cons_self _ _))
      have h2 := ih vs (by simpa using hlen) (fun r hr => hc r (List.mem_cons_of_mem _ hr))
      rw [add_add_add_comm, h1, h2, add_add_add_comm]

theorem gridIds_gravityFold (cs : List Nat) (g : Grid) (hd : dims g)
    (hcs : ∀ c ∈ cs, c < GRID_COLS) :
    (↑(gridIds (gravityFold cs g).1) : Multiset Nat) = ↑(gridIds g) := by
  induction cs generalizing g with
  | nil => rfl
  | cons c cs ih =>
    have hrowlt : ∀ row ∈ g, c < row.length := by
      intro row hrow
      rw [hd.2 row hrow]
      exact hcs c (List.mem_cons_self _ _)
    have hlen : ((settleCol (getCol g c)).1).length = g.length := by
      rw [settleCol_length, length_getCol]
    have hset := gridIds_setCol g c (settleCol (getCol g c)).1 hlen hrowlt
    have hsr : rowIds (settleCol (getCol g c)).1 = rowIds (getCol g c) :=
      settleColAux_rowIds gravityFuel (getCol g c) (by rw [length_getCol]; exact hd.1)
    rw [hsr] at hset
    have step : (↑(gridIds (setCol g c (settleCol (getCol g c)).1)) : Multiset Nat)
        = ↑(gridIds g) := add_right_cancel hset
    rw [show (gravityFold (c :: cs) g).1
        = (gravityFold cs (setCol g c (settleCol (getCol g c)).1)).1 from rfl]
    rw [ih (setCol g c (settleCol (getCol g c)).1) (dims_setCol g c _ hd hlen)
      (fun x hx => hcs x (List.mem_cons_of_mem _ hx)), step]

theorem gridIds_applyGravity_perm (g : Grid) (hd : dims g) :
    (gridIds (applyGravity g).1).Perm (gridIds g) :=
  Multiset.coe_eq_coe.mp
    (gridIds_gravityFold (List.range GRID_COLS) g hd (fun c hc => List.mem_range.mp hc))

theorem posOkP_iff_cols (g : Grid) : posOkP g ↔ ∀ c, colOk c (getCol g c) := by
  constructor
  · intro hp c r b hget
    rw [getCol_getD] at hget
    exact hp r c b hget
  · intro hp r c b hget
    exact hp c r b (by rw [getCol_getD]; exact hget)

theorem posOkP_applyGravity (g : Grid) (hd : dims g) (hp : posOkP g) :
    posOkP (applyGravity g).1 := by
  rw [posOkP_iff_cols] at hp ⊢
  intro c
  by_cases hc : c < GRID_COLS
  · rw [applyGravity_getCol g hd c hc]
    exact settleColAux_colOk c gravityFuel (getCol g c)
      (by rw [length_getCol]; exact hd.1) (hp c)
  · intro r b hget
    rw [getCol_getD] at hget
    have hdg := dims_applyGravity g hd
    by_cases hr : r < (applyGravity g).1.length
    · have hrow : ((applyGravity g).1.getD r []) ∈ (applyGravity g).1 := by
        rw [List.getD_eq_getElem _ _ hr]
        exact List.getElem_mem hr
      have hlen6 := hdg.2 _ hrow
      rw [getD_of_le_length _ c none (by rw [hlen6]; omega)] at hget
      cases hget
    · rw [getD_of_le_length _ r [] (by omega)] at hget
      simp at hget

theorem idsBelow_applyGravity (g : Grid) (n : Nat) (hd : dims g) (h : idsBelow g n) :
    idsBelow (applyGravity g).1 n := by
  intro i hi
  exact h i ((gridIds_applyGravity_perm g hd).mem_iff.mp hi)

theorem nodup_applyGravity (g : Grid) (hd : dims g) (h : (gridIds g).Nodup) :
    (gridIds (applyGravity g).1).Nodup :=
  (gridIds_applyGravity_perm g hd).symm.nodup h

/-! ### Removal lemmas -/

theorem getD_map_pres {α β : Type} (f : α → β) (l : List α) (n : Nat) (d : α) :
    (l.map f).getD n (f d) = f (l.getD n d) := by
  induction l generalizing n with
  | nil => simp
  | cons x xs ih =>
    cases n with
    | zero => simp
    | succ m =>
      rw [List.map_cons, List.getD_cons_succ, List.getD_cons_succ]
      exact ih m

theorem dims_removeSelected (g : Grid) (sel : List Nat) (hd : dims g) :
    dims (removeSelected g sel) := by
  refine ⟨by simp [removeSelected]; exact hd.1, ?_⟩
  intro row' hrow'
  obtain ⟨row, hrow, heq⟩ := List.mem_map.mp hrow'
  rw [← heq, List.length_map]
  exact hd.2 row hrow

theorem getCell_removeSelected (g : Grid) (sel : List Nat) (r c : Nat) :
    getCell (removeSelected g sel) r c = removeCell sel (getCell g r c) := by
  unfold getCell removeSelected
  have houter : ((g.map fun row => row.map (removeCell sel)).getD r ([].map (removeCell sel)))
      = (g.getD r []).map (removeCell sel) := getD_map_pres _ g r []
  rw [show ([] : List (Option Block)).map (removeCell sel) = [] from rfl] at houter
  rw [houter]
  have hinner : ((g.getD r []).map (removeCell sel)).getD c (removeCell sel none)
      = removeCell sel ((g.getD r []).getD c none) := getD_map_pres _ _ c none
  rw [show removeCell sel none = none from rfl] at hinner
  exact hinner

theorem posOkP_removeSelected (g : Grid) (sel : List Nat) (hp : posOkP g) :
    posOkP (removeSelected g sel) := by
  intro r c b hget
  rw [getCell_removeSelected] at hget
  cases hcell : getCell g r c with
  | none => rw [hcell] at hget; cases hget
  | some x =>
    rw [hcell] at hget
    rw [show removeCell sel (some x) = if x.id ∈ sel then none else some x from rfl] at hget
    by_cases hx : x.id ∈ sel
    · rw [if_pos hx] at hget; cases hget
    · rw [if_neg hx] at hget
      have hxb : x = b := Option.some_injective _ hget
      subst hxb
      exact hp r c x hcell

theorem mem_rowBlocks_removeCell (row : List (Option Block)) (sel : List Nat) (b : Block) :
    b ∈ rowBlocks (row.map (removeCell sel)) ↔ b ∈ rowBlocks row ∧ b.id ∉ sel := by
  induction row with
  | nil => simp [rowBlocks]
  | cons cell rest ih =>
    cases cell with
    | none => simpa [removeCell, rowBlocks] using ih
    | some x =>
      by_cases hx : x.id ∈ sel
      · rw [List.map_cons, show removeCell sel (some x) = none from by simp [removeCell, hx]]
        rw [show rowBlocks (none :: rest.map (removeCell sel)) = rowBlocks (rest.map (removeCell sel)) from rfl]
        rw [show rowBlocks (some x :: rest) = x :: rowBlocks rest from rfl]
        rw [ih]
        constructor
        · rintro ⟨h1, h2⟩
          exact ⟨List.mem_cons_of_mem _ h1, h2⟩
        · rintro ⟨h1, h2⟩
          rcases List.mem_cons.mp h1 with rfl | h1'
          · exact absurd hx h2
          · exact ⟨h1', h2⟩
      · rw [List.map_cons, show removeCell sel (some x) = some x from by simp [removeCell, hx]]
        rw [show rowBlocks (some x :: rest.map (removeCell sel)) = x :: rowBlocks (rest.map (removeCell sel)) from rfl]
        rw [show rowBlocks (some x :: rest) = x :: rowBlocks rest from rfl]
        constructor
        · intro h1
          rcases List.mem_cons.mp h1 with rfl | h1'
          · exact ⟨List.mem_cons_self _ _, hx⟩
          · obtain ⟨h2, h3⟩ := ih.mp h1'
            exact ⟨List.mem_cons_of_mem _ h2, h3⟩
        · rintro ⟨h1, h2⟩
          rcases List.mem_cons.mp h1 with rfl | h1'
          · exact List.mem_cons_self _ _
          · exact List.mem_cons_of_mem _ (ih.mpr ⟨h1', h2⟩)

theorem mem_blocksOf_removeSelected (g : Grid) (sel : List Nat) (b : Block) :
    b ∈ blocksOf (removeSelected g sel) ↔ b ∈ blocksOf g ∧ b.id ∉ sel := by
  induction g with
  | nil => simp [removeSelected, blocksOf]
  | cons row rows ih =>
    rw [show removeSelected (row :: rows) sel
        = row.map (removeCell sel) :: removeSelected rows sel from rfl]
    rw [show blocksOf (row.map (removeCell sel) :: removeSelected rows sel)
        = rowBlocks (row.map (removeCell sel)) ++ blocksOf (removeSelected rows sel) from rfl]
    rw [show blocksOf (row :: rows) = rowBlocks row ++ blocksOf rows from rfl]
    rw [List.mem_append, List.mem_append, mem_rowBlocks_removeCell, ih]
    tauto

theorem rowIds_removeCell_sublist (row : List (Option Block)) (sel : List Nat) :
    (rowIds (row.map (removeCell sel))).Sublist (rowIds row) := by
  induction row with
  | nil => simp [rowIds, rowBlocks]
  | cons cell rest ih =>
    cases cell with
    | none => simpa [removeCell, rowIds, rowBlocks] using ih
    | some x =>
      by_cases hx : x.id ∈ sel
      · rw [List.map_cons, show removeCell sel (some x) = none from by simp [removeCell, hx]]
        rw [show rowIds (none :: rest.map (removeCell sel)) = rowIds (rest.map (removeCell sel)) from rfl]
        rw [show rowIds (some x :: rest) = x.id :: rowIds rest from rfl]
        exact ih.cons x.id
      · rw [List.map_cons, show removeCell sel (some x) = some x from by simp [removeCell, hx]]
        rw [show rowIds (some x :: rest.map (removeCell sel)) = x.id :: rowIds (rest.map (removeCell sel)) from rfl]
        rw [show rowIds (some x :: rest) = x.id :: rowIds rest from rfl]
        exact ih.cons₂ x.id

theorem gridIds_removeSelected_sublist (g : Grid) (sel : List Nat) :
    (gridIds (removeSelected g sel)).Sublist (gridIds g) := by
  induction g with
  | nil => simp [removeSelected, gridIds, blocksOf]
  | cons row rows ih =>
    rw [show removeSelected (row :: rows) sel
        = row.map (removeCell sel) :: removeSelected rows sel from rfl]
    rw [gridIds_cons, gridIds_cons]
    exact (rowIds_removeCell_sublist row sel).append ih

theorem nodup_removeSelected (g : Grid) (sel : List Nat) (h : (gridIds g).Nodup) :
    (gridIds (removeSelected g sel)).Nodup :=
  (gridIds_removeSelected_sublist g sel).nodup h

theorem idsBelow_removeSelected (g : Grid) (sel : List Nat) (n : Nat) (h : idsBelow g n) :
    idsBelow (removeSelected g sel) n :=
  fun i hi => h i ((gridIds_removeSelected_sublist g sel).mem hi)

/-! ### Fresh-row generation lemmas -/

theorem fillRowAux_length (r cnt c nid : Nat) (sup : List Nat) :
    ((fillRowAux r cnt c nid sup).1).length = cnt := by
  induction cnt generalizing c nid sup with
  | zero => rfl
  | succ n ih => simpa [fillRowAux] using ih (c + 1) (nid + 1) sup.tail

theorem fillRowAux_nid (r cnt c nid : Nat) (sup : List Nat) :
    (fillRowAux r cnt c nid sup).2.1 = nid + cnt := by
  induction cnt generalizing c nid sup with
  | zero => rfl
  | succ n ih =>
    rw [show (fillRowAux r (n + 1) c nid sup).2.1
        = (fillRowAux r n (c + 1) (nid + 1) sup.tail).2.1 from rfl]
    rw [ih]
    omega

theorem fillRowAux_getD (r cnt c nid : Nat) (sup : List Nat) (k : Nat) (hk : k < cnt) :
    ∃ b, (fillRowAux r cnt c nid sup).1.getD k none = some b ∧
      b.id = nid + k ∧ b.row = r ∧ b.col = c + k ∧ 1 ≤ b.value ∧ b.value ≤ 9 := by
  induction cnt generalizing c nid sup k with
  | zero => omega
  | succ n ih =>
    cases k with
    | zero =>
      refine ⟨_, rfl, rfl, rfl, rfl, ?_, ?_⟩
      · show 1 ≤ sup.headD 0 % 9 + 1
        omega
      · show sup.headD 0 % 9 + 1 ≤ 9
        omega
    | succ m =>
      obtain ⟨b, hb, hid, hrow, hcol, hv1, hv2⟩ := ih (c + 1) (nid + 1) sup.tail m (by omega)
      exact ⟨b, hb, by omega, hrow, by omega, hv1, hv2⟩

theorem fillRowAux_rowIds (r cnt c nid : Nat) (sup : List Nat) :
    rowIds (fillRowAux r cnt c nid sup).1 = (List.range cnt).map (fun k => nid + k) := by
  induction cnt generalizing c nid sup with
  | zero => rfl
  | succ n ih =>
    have hstep : rowIds (fillRowAux r (n + 1) c nid sup).1
        = nid :: rowIds (fillRowAux r n (c + 1) (nid + 1) sup.tail).1 := rfl
    rw [hstep, ih, List.range_succ_eq_map, List.map_cons, List.map_map]
    congr 1
    apply List.map_congr_left
    intro a _
    simp only [Function.comp_apply]
    omega

theorem fillRow_rowIds (r nid : Nat) (sup : List Nat) :
    rowIds (fillRow r nid sup).1 = (List.range GRID_COLS).map (fun k => nid + k) :=
  fillRowAux_rowIds r GRID_COLS 0 nid sup

theorem fillRow_rowIds_nodup (r nid : Nat) (sup : List Nat) :
    (rowIds (fillRow r nid sup).1).Nodup := by
  rw [fillRow_rowIds]
  exact (List.nodup_range _).map (fun a b h => by omega)

theorem mem_fillRow_rowIds (r nid : Nat) (sup : List Nat) (i : Nat)
    (h : i ∈ rowIds (fillRow r nid sup).1) : nid ≤ i ∧ i < nid + GRID_COLS := by
  rw [fillRow_rowIds] at h
  obtain ⟨k, hk, hik⟩ := List.mem_map.mp h
  have := List.mem_range.mp hk
  omega

theorem fillRow_length (r nid : Nat) (sup : List Nat) :
    ((fillRow r nid sup).1).length = GRID_COLS := fillRowAux_length r GRID_COLS 0 nid sup

theorem fillRow_nid (r nid : Nat) (sup : List Nat) :
    (fillRow r nid sup).2.1 = nid + GRID_COLS := fillRowAux_nid r GRID_COLS 0 nid sup

theorem fillRow_getD (r nid : Nat) (sup : List Nat) (c : Nat) (hc : c < GRID_COLS) :
    ∃ b, (fillRow r nid sup).1.getD c none = some b ∧
      b.id = nid + c ∧ b.row = r ∧ b.col = c ∧ 1 ≤ b.value ∧ b.value ≤ 9 := by
  have h := fillRowAux_getD r GRID_COLS 0 nid sup c hc
  simpa using h

/-! ### Initialization lemmas -/

theorem getD_none_of_all_none (l : List (Option Block)) (h : ∀ x ∈ l, x = none) (c : Nat) :
    l.getD c none = none := by
  by_cases hc : c < l.length
  · rw [List.getD_eq_getElem _ _ hc]
    exact h _ (List.getElem_mem hc)
  · exact getD_of_le_length _ _ _ (by omega)

theorem getCell_mkEmptyGrid (r c : Nat) : getCell mkEmptyGrid r c = none := by
  unfold getCell
  have hall : ∀ row ∈ mkEmptyGrid, ∀ x ∈ row, x = (none : Option Block) := by
    intro row hrow x hx
    rw [(List.mem_replicate.mp hrow).2] at hx
    exact (List.mem_replicate.mp hx).2
  by_cases hr : r < mkEmptyGrid.length
  · apply getD_none_of_all_none
    intro x hx
    refine hall _ ?_ x hx
    rw [List.getD_eq_getElem _ _ hr]
    exact List.getElem_mem hr
  · rw [show mkEmptyGrid.getD r [] = [] from getD_of_le_length mkEmptyGrid r [] (by omega)]
    rfl

theorem posOkP_mkEmptyGrid : posOkP mkEmptyGrid := by
  intro r c b h
  rw [getCell_mkEmptyGrid] at h
  cases h

theorem fillRows_spec (rs : List Nat) (g : Grid) (nid : Nat) (sup : List Nat)
    (hd : dims g) (hnd : rs.Nodup) (hlt : ∀ r ∈ rs, r < GRID_ROWS)
    (hempty : ∀ r ∈ rs, rowIds (g.getD r []) = [])
    (hpos : posOkP g) (hnodup : (gridIds g).Nodup) (hbelow : idsBelow g nid) :
    dims (fillRows rs g nid sup).1 ∧ posOkP (fillRows rs g nid sup).1 ∧
      (gridIds (fillRows rs g nid sup).1).Nodup ∧
      idsBelow (fillRows rs g nid sup).1 (fillRows rs g nid sup).2.1 := by
  induction rs generalizing g nid sup with
  | nil => exact ⟨hd, hpos, hnodup, hbelow⟩
  | cons r rs ih =>
    have hrlt : r < g.length := by rw [hd.1]; exact hlt r (List.mem_cons_self _ _)
    have hfold : fillRows (r :: rs) g nid sup
        = fillRows rs (g.set r (fillRow r nid sup).1) (fillRow r nid sup).2.1
            (fillRow r nid sup).2.2 := rfl
    have hd1 : dims (g.set r (fillRow r nid sup).1) := by
      refine ⟨by rw [List.length_set]; exact hd.1, ?_⟩
      intro row' hrow'
      rcases List.mem_or_eq_of_mem_set hrow' with hmem | heq
      · exact hd.2 row' hmem
      · rw [heq]
        exact fillRow_length r nid sup
    have hpos1 : posOkP (g.set r (fillRow r nid sup).1) := by
      intro r' c b hget
      unfold getCell at hget
      by_cases hr' : r' = r
      · subst hr'
        rw [getD_set_self _ _ _ _ hrlt] at hget
        by_cases hc : c < GRID_COLS
        · obtain ⟨b0, hb0, hid, hrow, hcol, _, _⟩ := fillRow_getD r' nid sup c hc
          rw [hb0] at hget
          have hbb : b0 = b := Option.some_injective _ hget
          subst hbb
          exact ⟨hrow, by rw [hcol]⟩
        · rw [getD_of_le_length _ _ _ (by rw [fillRow_length]; omega)] at hget
          cases hget
      · rw [getD_set_ne _ _ _ _ _ hr'] at hget
        exact hpos r' c b hget
    have hperm : (gridIds (g.set r (fillRow r nid sup).1)).Perm
        (gridIds g ++ rowIds (fillRow r nid sup).1) := by
      apply Multiset.coe_eq_coe.mp
      have hms := gridIds_set g r (fillRow r nid sup).1 hrlt
      rw [hempty r (List.mem_cons_self _ _)] at hms
      rw [← Multiset.coe_add]
      simpa using hms
    have hnodup1 : (gridIds (g.set r (fillRow r nid sup).1)).Nodup := by
      apply hperm.symm.nodup
      refine List.Nodup.append hnodup (fillRow_rowIds_nodup r nid sup) ?_
      rw [List.disjoint_left]
      intro i hig hif
      have h1 := hbelow i hig
      have h2 := (mem_fillRow_rowIds r nid sup i hif).1
      omega
    have hbelow1 : idsBelow (g.set r (fillRow r nid sup).1) (fillRow r nid sup).2.1 := by
      intro i hi
      rw [fillRow_nid]
      rcases List.mem_append.mp (hperm.mem_iff.mp hi) with hig | hif
      · have := hbelow i hig
        omega
      · exact (mem_fillRow_rowIds r nid sup i hif).2
    have hempty1 : ∀ r' ∈ rs, rowIds ((g.set r (fillRow r nid sup).1).getD r' []) = [] := by
      intro r' hr'
      have hne : r' ≠ r := fun h => (List.nodup_cons.mp hnd).1 (h ▸ hr')
      rw [getD_set_ne _ _ _ _ _ hne]
      exact hempty r' (List.mem_cons_of_mem _ hr')
    rw [hfold]
    exact ih (g.set r (fillRow r nid sup).1) (fillRow r nid sup).2.1 (fillRow r nid sup).2.2
      hd1 (List.nodup_cons.mp hnd).2 (fun x hx => hlt x (List.mem_cons_of_mem _ hx))
      hempty1 hpos1 hnodup1 hbelow1

theorem initGrid_spec (nid : Nat) (sup : List Nat) :
    dims (initGrid nid sup).1 ∧ posOkP (initGrid nid sup).1 ∧
      (gridIds (initGrid nid sup).1).Nodup ∧
      idsBelow (initGrid nid sup).1 (initGrid nid sup).2.1 := by
  have hids : gridIds mkEmptyGrid = [] := rfl
  exact fillRows_spec initRows mkEmptyGrid nid sup (by decide) (by decide) (by decide)
    (by decide) posOkP_mkEmptyGrid (by rw [hids]; exact List.nodup_nil)
    (fun i hi => absurd (hids ▸ hi) (List.not_mem_nil i))

/-- Claim C1 base case: initialization establishes the grid invariant. -/
theorem Inv_initGame (m : GameMode) (s : GameState) : Inv (initGame m s) := by
  obtain ⟨h1, h2, h3, h4⟩ := initGrid_spec s.nextId s.sup
  exact ⟨h1, h2, h3, h4⟩

/-! ### Row-injection lemmas -/

theorem getD_map_range {α : Type} (f : Nat → α) (k r : Nat) (d : α) (h : r < k) :
    ((List.range k).map f).getD r d = f r := by
  rw [List.getD_eq_getElem _ _ (by simp [h])]
  simp

theorem getD_append_right_own {α : Type} (A B : List α) (k : Nat) (d : α) :
    (A ++ B).getD (A.length + k) d = B.getD k d := by
  induction A with
  | nil => simp
  | cons a A ih => simpa [Nat.succ_add] using ih

theorem addRowGrid_getD_lt (g : Grid) (nid : Nat) (sup : List Nat) (r : Nat)
    (hr : r < GRID_ROWS - 1) :
    (addRowGrid g nid sup).1.getD r [] = (g.getD (r + 1) []).map (shiftBlockRow r) := by
  unfold addRowGrid
  rw [List.getD_append _ _ _ _ (by simpa using hr)]
  exact getD_map_range _ _ _ _ hr

theorem addRowGrid_getD_bottom (g : Grid) (nid : Nat) (sup : List Nat) :
    (addRowGrid g nid sup).1.getD (GRID_ROWS - 1) [] = (fillRow (GRID_ROWS - 1) nid sup).1 := by
  unfold addRowGrid
  have hlen : ((List.range (GRID_ROWS - 1)).map fun r => (g.getD (r + 1) []).map (shiftBlockRow r)).length
      = GRID_ROWS - 1 := by simp
  have h := getD_append_right_own
    ((List.range (GRID_ROWS - 1)).map fun r => (g.getD (r + 1) []).map (shiftBlockRow r))
    [(fillRow (GRID_ROWS - 1) nid sup).1] 0 []
  rw [hlen, Nat.add_zero] at h
  exact h

theorem addRowGrid_length (g : Grid) (nid : Nat) (sup : List Nat) :
    ((addRowGrid g nid sup).1).length = GRID_ROWS := by
  unfold addRowGrid
  simp [grid_rows_eq]

theorem addRowGrid_nid (g : Grid) (nid : Nat) (sup : List Nat) :
    (addRowGrid g nid sup).2.1 = nid + GRID_COLS := fillRow_nid (GRID_ROWS - 1) nid sup

theorem dims_addRowGrid (g : Grid) (nid : Nat) (sup : List Nat) (hd : dims g) :
    dims (addRowGrid g nid sup).1 := by
  refine ⟨addRowGrid_length g nid sup, ?_⟩
  intro row' hrow'
  unfold addRowGrid at hrow'
  rcases List.mem_append.mp hrow' with hl | hr
  · obtain ⟨r, hr, heq⟩ := List.mem_map.mp hl
    have hrange := List.mem_range.mp hr
    rw [← heq, List.length_map]
    by_cases hin : r + 1 < g.length
    · have : g.getD (r + 1) [] ∈ g := by
        rw [List.getD_eq_getElem _ _ hin]
        exact List.getElem_mem hin
      exact hd.2 _ this
    · exfalso
      rw [hd.1, grid_rows_eq] at hin
      rw [grid_rows_eq] at hrange
      omega
  · rw [List.mem_singleton.mp hr]
    exact fillRow_length _ _ _

theorem range_map_getD_succ (g : Grid) (n : Nat) (h : g.length = n + 1) :
    (List.range n).map (fun r => g.getD (r + 1) []) = g.tail := by
  cases g with
  | nil => simp at h
  | cons row rows =>
    have hn : rows.length = n := by simpa using h
    rw [List.tail_cons, ← hn]
    have hcong : ∀ r ∈ List.range rows.length,
        (row :: rows).getD (r + 1) [] = rows.getD r [] := by
      intro r _
      exact List.getD_cons_succ
    rw [List.map_congr_left hcong, getD_range_map]

theorem gridIds_map_shift (idx : List Nat) (g : Grid) :
    gridIds (idx.map fun r => (g.getD (r + 1) []).map (shiftBlockRow r))
      = gridIds (idx.map fun r => g.getD (r + 1) []) := by
  induction idx with
  | nil => rfl
  | cons r rs ih =>
    rw [List.map_cons, List.map_cons, gridIds_cons, gridIds_cons, ih]
    congr 1
    exact rowIds_mapRow (fun b => { b with row := r }) (fun b => rfl) _

theorem rowIds_head_of_topEmpty (g : Grid) (htop : topRowOccupied g = false) :
    rowIds (g.headD []) = [] := by
  unfold topRowOccupied at htop
  rw [rowIds, rowBlocks_of_no_some _ htop]
  rfl

theorem gridIds_head_tail (g : Grid) :
    gridIds g = rowIds (g.headD []) ++ gridIds g.tail := by
  cases g with
  | nil => rfl
  | cons row rows => exact gridIds_cons row rows

theorem gridIds_addRowGrid (g : Grid) (nid : Nat) (sup : List Nat)
    (hd : dims g) (htop : topRowOccupied g = false) :
    gridIds (addRowGrid g nid sup).1
      = gridIds g ++ rowIds (fillRow (GRID_ROWS - 1) nid sup).1 := by
  unfold addRowGrid
  rw [gridIds_append, gridIds_map_shift]
  rw [range_map_getD_succ g (GRID_ROWS - 1) (by rw [hd.1]; rfl)]
  rw [show gridIds [(fillRow (GRID_ROWS - 1) nid sup).1]
      = rowIds (fillRow (GRID_ROWS - 1) nid sup).1 ++ [] from rfl, List.append_nil]
  conv_rhs => rw [gridIds_head_tail g, rowIds_head_of_topEmpty g htop]
  rfl

theorem posOkP_addRowGrid (g : Grid) (nid : Nat) (sup : List Nat) (hp : posOkP g) :
    posOkP (addRowGrid g nid sup).1 := by
  intro r c b hget
  unfold getCell at hget
  by_cases hr : r < GRID_ROWS - 1
  · rw [addRowGrid_getD_lt g nid sup r hr] at hget
    rw [show shiftBlockRow r = Option.map (fun b => { b with row := r }) from rfl] at hget
    rw [getD_map_opt] at hget
    cases hcell : (g.getD (r + 1) []).getD c none with
    | none => rw [hcell] at hget; cases hget
    | some b0 =>
      rw [hcell, Option.map_some'] at hget
      have hb := Option.some_injective _ hget
      have hold := hp (r + 1) c b0 hcell
      constructor
      · rw [← hb]
      · rw [← hb]
        exact hold.2
  · by_cases hr9 : r = GRID_ROWS - 1
    · subst hr9
      rw [addRowGrid_getD_bottom] at hget
      by_cases hc : c < GRID_COLS
      · obtain ⟨b0, hb0, hid, hrow, hcol, _, _⟩ := fillRow_getD (GRID_ROWS - 1) nid sup c hc
        rw [hb0] at hget
        have hb := Option.some_injective _ hget
        rw [← hb]
        exact ⟨hrow, hcol⟩
      · rw [getD_of_le_length _ _ _ (by rw [fillRow_length]; omega)] at hget
        cases hget
    · have hge : GRID_ROWS ≤ r := by
        rw [grid_rows_eq] at hr hr9 ⊢
        omega
      have houter : (addRowGrid g nid sup).1.getD r [] = ([] : List (Option Block)) :=
        getD_of_le_length _ _ _ (by rw [addRowGrid_length]; exact hge)
      rw [houter] at hget
      simp at hget

theorem length_rowBlocks_countP (l : List (Option Block)) :
    (rowBlocks l).length = l.countP (fun cell => cell.isSome) := by
  induction l with
  | nil => rfl
  | cons x xs ih =>
    cases x with
    | none => simpa [rowBlocks, List.countP_cons] using ih
    | some b => simpa [rowBlocks, List.countP_cons] using ih

theorem getCol_addRowGrid (g : Grid) (nid : Nat) (sup : List Nat) (c : Nat) :
    getCol (addRowGrid g nid sup).1 c
      = ((List.range (GRID_ROWS - 1)).map fun r =>
          Option.map (fun b => { b with row := r }) ((g.getD (r + 1) []).getD c none))
        ++ [(fillRow (GRID_ROWS - 1) nid sup).1.getD c none] := by
  unfold addRowGrid getCol
  rw [List.map_append, List.map_map]
  congr 1
  apply List.map_congr_left
  intro r _
  rw [Function.comp_apply]
  rw [show shiftBlockRow r = Option.map (fun b => { b with row := r }) from rfl]
  exact getD_map_opt _ _ _

theorem colCount_addRowGrid (g : Grid) (nid : Nat) (sup : List Nat) (c : Nat)
    (hd : dims g) (htop : topRowOccupied g = false) (hc : c < GRID_COLS) :
    colCount (addRowGrid g nid sup).1 c = colCount g c + 1 := by
  unfold colCount
  rw [getCol_addRowGrid, length_rowBlocks_countP, length_rowBlocks_countP]
  rw [List.countP_append, List.countP_map]
  obtain ⟨b0, hb0, hrest⟩ := fillRow_getD (GRID_ROWS - 1) nid sup c hc
  rw [show List.countP (fun cell => cell.isSome) [(fillRow (GRID_ROWS - 1) nid sup).1.getD c none]
      = 1 from by rw [hb0]; rfl]
  have hcomp : ((fun (cell : Option Block) => cell.isSome) ∘
      (fun r => Option.map (fun b => { b with row := r }) ((g.getD (r + 1) []).getD c none)))
      = fun r => ((g.getD (r + 1) []).getD c none).isSome := by
    funext r
    rw [Function.comp_apply, Option.isSome_map']
  rw [hcomp]
  -- the old column: the head cell is empty, the remaining cells are rows 1..9
  cases g with
  | nil => exact absurd hd.1 (by decide)
  | cons row rows =>
    have hrowlen : rows.length = GRID_ROWS - 1 := by
      have h10 := hd.1
      rw [grid_rows_eq] at h10 ⊢
      simpa using h10
    have hrownone : row.getD c none = none := by
      apply getD_none_of_all_none
      intro x hx
      cases x with
      | none => rfl
      | some b =>
        rw [show topRowOccupied (row :: rows) = row.any (fun cell => cell.isSome) from rfl] at htop
        rw [List.any_eq_false] at htop
        exact absurd (show (some b).isSome = true from rfl) (htop _ hx)
    rw [show getCol (row :: rows) c = row.getD c none :: getCol rows c from rfl]
    rw [hrownone]
    rw [show List.countP (fun cell => cell.isSome) ((none : Option Block) :: getCol rows c)
        = List.countP (fun cell => cell.isSome) (getCol rows c) from by simp [List.countP_cons]]
    congr 1
    rw [show getCol rows c = rows.map (fun row2 => row2.getD c none) from rfl, List.countP_map]
    conv_rhs => rw [show rows = (List.range rows.length).map (fun r => rows.getD r [])
      from (getD_range_map rows []).symm]
    rw [List.countP_map, hrowlen]
    apply List.countP_congr
    intro r hr
    simp [Function.comp, List.getD_cons_succ]

/-! ### State-level lemmas for addRow -/

theorem bool_eq_false_of_ne_true (b : Bool) (h : ¬ b = true) : b = false := by
  cases b with
  | false => rfl
  | true => exact absurd rfl h

theorem addRowBase_score (s : GameState) : (addRowBase s).score = s.score := by
  unfold addRowBase
  split <;> rfl

theorem addRowBase_target (s : GameState) : (addRowBase s).target = s.target := by
  unfold addRowBase
  split <;> rfl

theorem addRowBase_selectedIds (s : GameState) : (addRowBase s).selectedIds = s.selectedIds := by
  unfold addRowBase
  split <;> rfl

theorem addRowBase_mode (s : GameState) : (addRowBase s).mode = s.mode := by
  unfold addRowBase
  split <;> rfl

theorem addRowBase_timeLeft (s : GameState) : (addRowBase s).timeLeft = s.timeLeft := by
  unfold addRowBase
  split <;> rfl

theorem addRowBase_isPaused (s : GameState) : (addRowBase s).isPaused = s.isPaused := by
  unfold addRowBase
  split <;> rfl

theorem addRow_score (s : GameState) : (addRow s).score = s.score := by
  unfold addRow
  split <;> exact addRowBase_score s

theorem addRow_target (s : GameState) : (addRow s).target = s.target := by
  unfold addRow
  split <;> exact addRowBase_target s

theorem addRow_selectedIds (s : GameState) : (addRow s).selectedIds = s.selectedIds := by
  unfold addRow
  split <;> exact addRowBase_selectedIds s

theorem addRow_mode (s : GameState) : (addRow s).mode = s.mode := by
  unfold addRow
  split <;> exact addRowBase_mode s

theorem addRow_isPaused (s : GameState) : (addRow s).isPaused = s.isPaused := by
  unfold addRow
  split <;> exact addRowBase_isPaused s

theorem addRow_grid_eq_base (s : GameState) : (addRow s).grid = (addRowBase s).grid := by
  unfold addRow
  split <;> rfl

theorem addRow_gameOver_eq_base (s : GameState) :
    (addRow s).isGameOver = (addRowBase s).isGameOver := by
  unfold addRow
  split <;> rfl

theorem addRow_nextId_eq_base (s : GameState) : (addRow s).nextId = (addRowBase s).nextId := by
  unfold addRow
  split <;> rfl

theorem addRowBase_grid_of_overflow (s : GameState) (h : topRowOccupied s.grid = true) :
    (addRowBase s).grid = s.grid := by
  unfold addRowBase
  rw [if_pos h]

theorem addRowBase_gameOver_of_overflow (s : GameState) (h : topRowOccupied s.grid = true) :
    (addRowBase s).isGameOver = true := by
  unfold addRowBase
  rw [if_pos h]

theorem addRowBase_grid_ok (s : GameState) (h : topRowOccupied s.grid = false) :
    (addRowBase s).grid = (addRowGrid s.grid s.nextId s.sup).1 := by
  unfold addRowBase
  rw [if_neg (by rw [h]; simp)]

theorem addRowBase_gameOver_ok (s : GameState) (h : topRowOccupied s.grid = false) :
    (addRowBase s).isGameOver = s.isGameOver := by
  unfold addRowBase
  rw [if_neg (by rw [h]; simp)]

theorem addRow_grid_of_overflow (s : GameState) (h : topRowOccupied s.grid = true) :
    (addRow s).grid = s.grid := by
  rw [addRow_grid_eq_base, addRowBase_grid_of_overflow s h]

theorem addRow_gameOver_of_overflow (s : GameState) (h : topRowOccupied s.grid = true) :
    (addRow s).isGameOver = true := by
  rw [addRow_gameOver_eq_base, addRowBase_gameOver_of_overflow s h]

theorem addRow_grid_ok (s : GameState) (h : topRowOccupied s.grid = false) :
    (addRow s).grid = (addRowGrid s.grid s.nextId s.sup).1 := by
  rw [addRow_grid_eq_base, addRowBase_grid_ok s h]

theorem addRow_timeLeft_time (s : GameState) (h : s.mode = some GameMode.TIME) :
    (addRow s).timeLeft = TIME_LIMIT := by
  unfold addRow
  rw [if_pos h]

theorem addRow_timeLeft_other (s : GameState) (h : ¬ s.mode = some GameMode.TIME) :
    (addRow s).timeLeft = s.timeLeft := by
  unfold addRow
  rw [if_neg h]
  exact addRowBase_timeLeft s

/-! ### Invariant preservation -/

theorem Inv_addRow (s : GameState) (h : Inv s) : Inv (addRow s) := by
  have hbase : Inv (addRowBase s) := by
    unfold addRowBase
    by_cases htop : topRowOccupied s.grid
    · rw [if_pos htop]
      exact h
    · rw [if_neg htop]
      have hfalse : topRowOccupied s.grid = false := bool_eq_false_of_ne_true _ htop
      obtain ⟨hd, hp, hn, hb⟩ := h
      have hids := gridIds_addRowGrid s.grid s.nextId s.sup hd hfalse
      refine ⟨dims_addRowGrid s.grid s.nextId s.sup hd,
        posOkP_addRowGrid s.grid s.nextId s.sup hp, ?_, ?_⟩
      · rw [hids]
        refine List.Nodup.append hn (fillRow_rowIds_nodup _ _ _) ?_
        rw [List.disjoint_left]
        intro i hig hif
        have h1 := hb i hig
        have h2 := (mem_fillRow_rowIds _ _ _ i hif).1
        omega
      · intro i hi
        have hi2 : i ∈ gridIds (addRowGrid s.grid s.nextId s.sup).1 := hi
        rw [hids] at hi2
        show i < (addRowGrid s.grid s.nextId s.sup).2.1
        rw [addRowGrid_nid]
        rcases List.mem_append.mp hi2 with hig | hif
        · have := hb i hig
          omega
        · exact (mem_fillRow_rowIds _ _ _ i hif).2
  unfold addRow
  split
  · exact hbase
  · exact hbase

theorem Inv_matchCore (s : GameState) (h : Inv s) : Inv (matchCore s) := by
  obtain ⟨hd, hp, hn, hb⟩ := h
  have hd1 := dims_removeSelected s.grid s.selectedIds hd
  refine ⟨dims_applyGravity _ hd1, ?_, ?_, ?_⟩
  · exact posOkP_applyGravity _ hd1 (posOkP_removeSelected s.grid s.selectedIds hp)
  · exact nodup_applyGravity _ hd1 (nodup_removeSelected s.grid s.selectedIds hn)
  · exact idsBelow_applyGravity _ s.nextId hd1
      (idsBelow_removeSelected s.grid s.selectedIds s.nextId hb)

theorem Inv_evalStep (s : GameState) (h : Inv s) : Inv (evalStep s) := by
  unfold evalStep
  split
  · exact h
  · split
    · split
      · exact Inv_addRow _ (Inv_matchCore _ h)
      · exact Inv_matchCore _ h
    · split
      · exact h
      · exact h

theorem Inv_toggleEvent (s : GameState) (id : Nat) (h : Inv s) : Inv (toggleEvent s id) := by
  unfold toggleEvent
  split
  · exact h
  · exact Inv_evalStep _ h

theorem Inv_tickStep (s : GameState) (h : Inv s) : Inv (tickStep s) := by
  unfold tickStep
  split
  · split
    · exact Inv_addRow _ h
    · exact h
  · exact h

theorem Inv_pauseStep (s : GameState) (h : Inv s) : Inv (pauseStep s) := h

theorem Inv_reachable (s : GameState) (h : Reachable s) : Inv s := by
  induction h with
  | init m s0 => exact Inv_initGame m s0
  | toggle s0 id _ ih => exact Inv_toggleEvent s0 id ih
  | tick s0 _ ih => exact Inv_tickStep s0 ih
  | injection s0 _ ih => exact Inv_addRow s0 ih
  | pause s0 _ ih => exact Inv_pauseStep s0 ih

/-! ### Evaluation-step lemmas -/

theorem getRandomTarget_bounds (n : Nat) :
    TARGET_MIN ≤ getRandomTarget n ∧ getRandomTarget n ≤ TARGET_MAX := by
  unfold getRandomTarget TARGET_MIN TARGET_MAX
  omega

theorem evalStep_of_zero (s : GameState) (h : selSum s = 0) :
    evalStep s = { s with currentSum := selSum s } := by
  unfold evalStep
  rw [if_pos h]

theorem evalStep_of_match (s : GameState) (h : selSum s = s.target) (h0 : selSum s ≠ 0) :
    evalStep s = if s.mode = some GameMode.CLASSIC
      then addRow (matchCore { s with currentSum := selSum s })
      else matchCore { s with currentSum := selSum s } := by
  unfold evalStep
  rw [if_neg h0, if_pos h]

theorem evalStep_of_overshoot (s : GameState) (hov : s.target < selSum s) :
    evalStep s = { s with currentSum := selSum s, selectedIds := [] } := by
  unfold evalStep
  rw [if_neg (by omega), if_neg (by omega), if_pos hov]

theorem evalStep_of_under (s : GameState) (h0 : selSum s ≠ 0) (hlt : selSum s < s.target) :
    evalStep s = { s with currentSum := selSum s } := by
  unfold evalStep
  rw [if_neg h0, if_neg (by omega), if_neg (by omega)]

theorem evalStep_timeLeft_of_not_classic (s : GameState)
    (h : ¬ s.mode = some GameMode.CLASSIC) : (evalStep s).timeLeft = s.timeLeft := by
  by_cases h0 : selSum s = 0
  · rw [evalStep_of_zero s h0]
  · by_cases hm : selSum s = s.target
    · rw [evalStep_of_match s hm h0, if_neg h]
      rfl
    · by_cases hov : s.target < selSum s
      · rw [evalStep_of_overshoot s hov]
      · rw [evalStep_of_under s h0 (by omega)]

/-! ### Missing-id tolerance lemmas -/

theorem mem_gridIds_of_mem_blocksOf (g : Grid) (b : Block) (h : b ∈ blocksOf g) :
    b.id ∈ gridIds g := List.mem_map_of_mem _ h

theorem mem_rowBlocks_of_mem (row : List (Option Block)) (b : Block) (h : some b ∈ row) :
    b ∈ rowBlocks row := by
  induction row with
  | nil => cases h
  | cons cell rest ih =>
    rcases List.mem_cons.mp h with heq | hmem
    · rw [← heq]
      exact List.mem_cons_self _ _
    · cases cell with
      | none => exact ih hmem
      | some x => exact List.mem_cons_of_mem _ (ih hmem)

theorem mem_blocksOf_of_mem_cell (g : Grid) (row : List (Option Block)) (b : Block)
    (hrow : row ∈ g) (hcell : some b ∈ row) : b ∈ blocksOf g := by
  induction g with
  | nil => cases hrow
  | cons row0 rows ih =>
    rw [show blocksOf (row0 :: rows) = rowBlocks row0 ++ blocksOf rows from rfl, List.mem_append]
    rcases List.mem_cons.mp hrow with heq | hmem
    · exact Or.inl (mem_rowBlocks_of_mem row0 b (heq ▸ hcell))
    · exact Or.inr (ih hmem)

theorem selectedBlocks_congr (s : GameState) (sel2 : List Nat)
    (h : ∀ b ∈ blocksOf s.grid, (b.id ∈ sel2 ↔ b.id ∈ s.selectedIds)) :
    selectedBlocks { s with selectedIds := sel2 } = selectedBlocks s := by
  show (blocksOf s.grid).filter (fun b => decide (b.id ∈ sel2))
    = (blocksOf s.grid).filter (fun b => decide (b.id ∈ s.selectedIds))
  apply List.filter_congr
  intro b hb
  have hiff := h b hb
  by_cases hx : b.id ∈ sel2
  · rw [decide_eq_true hx, decide_eq_true (hiff.mp hx)]
  · rw [decide_eq_false hx, decide_eq_false (fun hy => hx (hiff.mpr hy))]

theorem removeSelected_congr (g : Grid) (sel1 sel2 : List Nat)
    (h : ∀ b ∈ blocksOf g, (b.id ∈ sel1 ↔ b.id ∈ sel2)) :
    removeSelected g sel1 = removeSelected g sel2 := by
  unfold removeSelected
  apply List.map_congr_left
  intro row hrow
  apply List.map_congr_left
  intro cell hcell
  cases cell with
  | none => rfl
  | some b =>
    have hbmem : b ∈ blocksOf g := mem_blocksOf_of_mem_cell g row b hrow hcell
    show (if b.id ∈ sel1 then none else some b) = (if b.id ∈ sel2 then none else some b)
    by_cases h1 : b.id ∈ sel1
    · rw [if_pos h1, if_pos ((h b hbmem).mp h1)]
    · rw [if_neg h1, if_neg (fun h2 => h1 ((h b hbmem).mpr h2))]

theorem toggleSelection_mem_iff (sel : List Nat) (id x : Nat) (hx : x ≠ id) :
    (x ∈ toggleSelection sel id ↔ x ∈ sel) := by
  unfold toggleSelection
  split
  · rw [List.mem_filter]
    constructor
    · exact fun h => h.1
    · intro h
      exact ⟨h, by simpa using hx⟩
  · rw [List.mem_append]
    constructor
    · intro h
      rcases h with h | h
      · exact h
      · exact absurd (List.mem_singleton.mp h) hx
    · exact fun h => Or.inl h

theorem addRow_grid_timeLeft (s : GameState) (t : Nat) :
    (addRow { s with timeLeft := t }).grid = (addRow s).grid := by
  rw [addRow_grid_eq_base, addRow_grid_eq_base]
  unfold addRowBase
  by_cases htop : topRowOccupied s.grid = true
  · rw [if_pos htop,
      if_pos (show topRowOccupied ({ s with timeLeft := t } : GameState).grid = true from htop)]
  · rw [if_neg htop,
      if_neg (show ¬ topRowOccupied ({ s with timeLeft := t } : GameState).grid = true from htop)]

/-! ### Claim theorems -/

/-- Claim C1: at all times reachable by the operations (initialize,
injectRow/addRow, match removal, applyGravity), every occupied cell `(r, c)`
stores a block whose `row` field is `r` and `col` field is `c`, and no two
occupied cells hold blocks with the same id. -/
theorem claim_C1_grid_invariant (s : GameState) (h : Reachable s) :
    posOkP s.grid ∧ (gridIds s.grid).Nodup := by
  obtain ⟨_, hp, hn, _⟩ := Inv_reachable s h
  exact ⟨hp, hn⟩

theorem claim_C1_witness :
    posOkP (initGame GameMode.CLASSIC st0).grid ∧
      (gridIds (initGame GameMode.CLASSIC st0).grid).Nodup :=
  claim_C1_grid_invariant (initGame GameMode.CLASSIC st0)
    (Reachable.init GameMode.CLASSIC st0)

/-- Claim C2: if the top row contains any block, `injectRow` (addRow) leaves
the grid unchanged and signals game over; if the top row is empty, every row
`r < 9` receives row `r + 1`'s contents with each moved block's `row` field
updated to `r`, the bottom row is entirely replaced with freshly generated
blocks, and per-column block counts grow by exactly the new bottom cell. -/
theorem claim_C2_injectRow (s : GameState) (hd : dims s.grid) :
    (topRowOccupied s.grid = true →
      (addRow s).grid = s.grid ∧ (addRow s).isGameOver = true) ∧
    (topRowOccupied s.grid = false →
      (∀ r, r < GRID_ROWS - 1 →
        (addRow s).grid.getD r [] = (s.grid.getD (r + 1) []).map (shiftBlockRow r)) ∧
      (∀ c, c < GRID_COLS → ∃ b, getCell (addRow s).grid (GRID_ROWS - 1) c = some b ∧
        b.id = s.nextId + c ∧ b.row = GRID_ROWS - 1 ∧ b.col = c ∧
        1 ≤ b.value ∧ b.value ≤ 9) ∧
      (∀ c, c < GRID_COLS → colCount (addRow s).grid c = colCount s.grid c + 1)) := by
  constructor
  · intro h
    exact ⟨addRow_grid_of_overflow s h, addRow_gameOver_of_overflow s h⟩
  · intro h
    rw [addRow_grid_ok s h]
    refine ⟨?_, ?_, ?_⟩
    · intro r hr
      exact addRowGrid_getD_lt s.grid s.nextId s.sup r hr
    · intro c hc
      obtain ⟨b, hb, h1, h2, h3, h4, h5⟩ := fillRow_getD (GRID_ROWS - 1) s.nextId s.sup c hc
      refine ⟨b, ?_, h1, h2, h3, h4, h5⟩
      unfold getCell
      rw [addRowGrid_getD_bottom]
      exact hb
    · intro c hc
      exact colCount_addRowGrid s.grid s.nextId s.sup c hd h hc

theorem claim_C2_witness :
    (∀ r, r < GRID_ROWS - 1 →
      (addRow stTime).grid.getD r [] = (stTime.grid.getD (r + 1) []).map (shiftBlockRow r)) ∧
    (∀ c, c < GRID_COLS → ∃ b, getCell (addRow stTime).grid (GRID_ROWS - 1) c = some b ∧
      b.id = stTime.nextId + c ∧ b.row = GRID_ROWS - 1 ∧ b.col = c ∧
      1 ≤ b.value ∧ b.value ≤ 9) ∧
    (∀ c, c < GRID_COLS → colCount (addRow stTime).grid c = colCount stTime.grid c + 1) :=
  (claim_C2_injectRow stTime (by decide)).2 (by decide)

/-- Claim C3: for every well-formed grid, applying `applyGravity` twice in a
row yields the same grid as applying it once. -/
theorem claim_C3_gravity_idempotent (g : Grid) (hd : dims g) :
    (applyGravity (applyGravity g).1).1 = (applyGravity g).1 := by
  have hd1 := dims_applyGravity g hd
  have hsettled : ∀ c ∈ List.range GRID_COLS,
      scanSwap (getCol (applyGravity g).1 c) (GRID_ROWS - 1) = none :=
    fun c hc => applyGravity_settled g hd c (List.mem_range.mp hc)
  have hrc : ∀ c ∈ List.range GRID_COLS, ∀ row ∈ (applyGravity g).1, c < row.length := by
    intro c hc row hrow
    rw [hd1.2 row hrow]
    exact List.mem_range.mp hc
  have hfix := gravityFold_of_settled (List.range GRID_COLS) (applyGravity g).1 hsettled hrc
  show (gravityFold (List.range GRID_COLS) (applyGravity g).1).1 = (applyGravity g).1
  rw [hfix]

theorem claim_C3_witness :
    (applyGravity (applyGravity stTime.grid).1).1 = (applyGravity stTime.grid).1 :=
  claim_C3_gravity_idempotent stTime.grid (by decide)

/-- Claim C4: whenever the sum of the `n` selected blocks present in the grid
equals the (non-zero) target, the evaluation step removes exactly those
blocks, applies gravity, increases the score by exactly `10 * n`, draws a new
target in `[10, 25]`, and empties the selection (when the mode is classic the
resulting grid additionally receives the injected row, handled by claim C5). -/
theorem claim_C4_match (s : GameState) (hsum : selSum s = s.target) (ht0 : s.target ≠ 0) :
    (evalStep s).score = s.score + (selectedBlocks s).length * 10 ∧
    (evalStep s).selectedIds = [] ∧
    TARGET_MIN ≤ (evalStep s).target ∧ (evalStep s).target ≤ TARGET_MAX ∧
    (∀ b : Block, b ∈ blocksOf (removeSelected s.grid s.selectedIds)
      ↔ b ∈ blocksOf s.grid ∧ b.id ∉ s.selectedIds) ∧
    (¬ s.mode = some GameMode.CLASSIC →
      (evalStep s).grid = (applyGravity (removeSelected s.grid s.selectedIds)).1) := by
  have h0 : selSum s ≠ 0 := by
    rw [hsum]
    exact ht0
  rw [evalStep_of_match s hsum h0]
  by_cases hm : s.mode = some GameMode.CLASSIC
  · rw [if_pos hm]
    refine ⟨?_, ?_, ?_, ?_, fun b => mem_blocksOf_removeSelected _ _ b,
      fun hc => absurd hm hc⟩
    · rw [addRow_score]
      rfl
    · rw [addRow_selectedIds]
      rfl
    · rw [addRow_target]
      exact (getRandomTarget_bounds _).1
    · rw [addRow_target]
      exact (getRandomTarget_bounds _).2
  · rw [if_neg hm]
    exact ⟨rfl, rfl, (getRandomTarget_bounds _).1, (getRandomTarget_bounds _).2,
      fun b => mem_blocksOf_removeSelected _ _ b, fun _ => rfl⟩

theorem claim_C4_witness :
    (evalStep stSel).score = stSel.score + (selectedBlocks stSel).length * 10 ∧
    (evalStep stSel).selectedIds = [] ∧
    TARGET_MIN ≤ (evalStep stSel).target ∧ (evalStep stSel).target ≤ TARGET_MAX ∧
    (∀ b : Block, b ∈ blocksOf (removeSelected stSel.grid stSel.selectedIds)
      ↔ b ∈ blocksOf stSel.grid ∧ b.id ∉ stSel.selectedIds) ∧
    (¬ stSel.mode = some GameMode.CLASSIC →
      (evalStep stSel).grid = (applyGravity (removeSelected stSel.grid stSel.selectedIds)).1) :=
  claim_C4_match stSel (by decide) (by decide)

/-- Claim C5: in classic mode every match immediately invokes `injectRow`;
if the post-clear-and-gravity grid has an occupied top row, the injection
reports overflow, the net effect is game over, and the grid is left at its
post-gravity state (the match reward is not finalized into a continuing
game). -/
theorem claim_C5_classic_escalation (s : GameState) (hm : s.mode = some GameMode.CLASSIC)
    (hsum : selSum s = s.target) (ht0 : s.target ≠ 0) :
    evalStep s = addRow (matchCore { s with currentSum := selSum s }) ∧
    (topRowOccupied ((applyGravity (removeSelected s.grid s.selectedIds)).1) = true →
      (evalStep s).isGameOver = true ∧
      (evalStep s).grid = (applyGravity (removeSelected s.grid s.selectedIds)).1) := by
  have h0 : selSum s ≠ 0 := by
    rw [hsum]
    exact ht0
  have heq : evalStep s = addRow (matchCore { s with currentSum := selSum s }) := by
    rw [evalStep_of_match s hsum h0, if_pos hm]
  refine ⟨heq, ?_⟩
  intro hover
  have hover2 : topRowOccupied (matchCore { s with currentSum := selSum s }).grid = true := hover
  rw [heq]
  refine ⟨addRow_gameOver_of_overflow _ hover2, ?_⟩
  rw [addRow_grid_of_overflow _ hover2]
  rfl

theorem claim_C5_witness :
    evalStep stSelC = addRow (matchCore { stSelC with currentSum := selSum stSelC }) ∧
    (topRowOccupied ((applyGravity (removeSelected stSelC.grid stSelC.selectedIds)).1) = true →
      (evalStep stSelC).isGameOver = true ∧
      (evalStep stSelC).grid = (applyGravity (removeSelected stSelC.grid stSelC.selectedIds)).1) :=
  claim_C5_classic_escalation stSelC (by decide) (by decide) (by decide)

/-- Claim C6: whenever the selected sum strictly exceeds the target, the net
effect of the overshoot handling (after the fixed 400 ms delay) is that the
selection becomes empty while neither the grid nor the score changes. -/
theorem claim_C6_overshoot (s : GameState) (hov : s.target < selSum s) :
    (evalStep s).selectedIds = [] ∧ (evalStep s).grid = s.grid ∧
      (evalStep s).score = s.score := by
  rw [evalStep_of_overshoot s hov]
  exact ⟨rfl, rfl, rfl⟩

theorem claim_C6_witness :
    (evalStep stSel2).selectedIds = [] ∧ (evalStep stSel2).grid = stSel2.grid ∧
      (evalStep stSel2).score = stSel2.score :=
  claim_C6_overshoot stSel2 (by decide)

/-- Claim C7: once `isGameOver` is true, no block toggle, timer tick, or pause
call changes the score, the grid, or `timeLeft`, and none of them clears
`isGameOver`; only `initGame` (start/reset) leaves the game-over state. -/
theorem claim_C7_terminal_lock (s : GameState) (id : Nat) (h : s.isGameOver = true) :
    toggleEvent s id = s ∧ tickStep s = s ∧
    (pauseStep s).score = s.score ∧ (pauseStep s).grid = s.grid ∧
    (pauseStep s).timeLeft = s.timeLeft ∧ (pauseStep s).isGameOver = true ∧
    (initGame GameMode.CLASSIC s).isGameOver = false := by
  refine ⟨?_, ?_, rfl, rfl, rfl, h, rfl⟩
  · unfold toggleEvent
    rw [if_pos (by rw [h]; rfl)]
  · unfold tickStep
    rw [if_neg ?_]
    rintro ⟨_, h2, _⟩
    rw [h] at h2
    cases h2

theorem claim_C7_witness :
    toggleEvent stOver 5 = stOver ∧ tickStep stOver = stOver ∧
    (pauseStep stOver).score = stOver.score ∧ (pauseStep stOver).grid = stOver.grid ∧
    (pauseStep stOver).timeLeft = stOver.timeLeft ∧ (pauseStep stOver).isGameOver = true ∧
    (initGame GameMode.CLASSIC stOver).isGameOver = false :=
  claim_C7_terminal_lock stOver 5 (by decide)

/-- Claim C8: in time mode, starting from `timeLeft = 10`, the first nine
un-intervened ticks only decrement the timer (the grid stays untouched), and
the tenth tick performs exactly one row injection and resets the timer to
10. -/
theorem claim_C8_timed_expiry (s : GameState) (hm : s.mode = some GameMode.TIME)
    (hgo : s.isGameOver = false) (hp : s.isPaused = false) (htl : s.timeLeft = TIME_LIMIT) :
    (∀ k, k ≤ 9 → tickStep^[k] s = { s with timeLeft := TIME_LIMIT - k }) ∧
    tickStep^[10] s = { addRow { s with timeLeft := 1 } with timeLeft := TIME_LIMIT } ∧
    (tickStep^[10] s).grid = (addRow s).grid ∧
    (tickStep^[10] s).timeLeft = TIME_LIMIT := by
  have hiter : ∀ k, k ≤ 9 → tickStep^[k] s = { s with timeLeft := TIME_LIMIT - k } := by
    intro k
    induction k with
    | zero =>
      intro _
      rw [Function.iterate_zero_apply, show TIME_LIMIT - 0 = TIME_LIMIT from rfl, ← htl]
    | succ k ih =>
      intro hk9
      rw [Function.iterate_succ_apply', ih (by omega)]
      unfold tickStep
      rw [if_pos ⟨hm, hgo, hp⟩]
      rw [if_neg (show ¬ ({ s with timeLeft := TIME_LIMIT - k } : GameState).timeLeft ≤ 1 from by
        show ¬ TIME_LIMIT - k ≤ 1
        rw [show TIME_LIMIT = 10 from rfl]
        omega)]
      show ({ s with timeLeft := TIME_LIMIT - k - 1 } : GameState)
        = { s with timeLeft := TIME_LIMIT - (k + 1) }
      rw [show TIME_LIMIT - k - 1 = TIME_LIMIT - (k + 1) from by omega]
  have h10 : tickStep^[10] s = { addRow { s with timeLeft := 1 } with timeLeft := TIME_LIMIT } := by
    rw [show (10 : Nat) = 9 + 1 from rfl, Function.iterate_succ_apply', hiter 9 (by omega)]
    unfold tickStep
    rw [if_pos ⟨hm, hgo, hp⟩]
    rw [if_pos (show ({ s with timeLeft := TIME_LIMIT - 9 } : GameState).timeLeft ≤ 1 from by
      show TIME_LIMIT - 9 ≤ 1
      rw [show TIME_LIMIT = 10 from rfl])]
    rfl
  refine ⟨hiter, h10, ?_, ?_⟩
  · rw [h10]
    show (addRow { s with timeLeft := 1 }).grid = (addRow s).grid
    exact addRow_grid_timeLeft s 1
  · rw [h10]

theorem claim_C8_witness :
    (∀ k, k ≤ 9 → tickStep^[k] stTime = { stTime with timeLeft := TIME_LIMIT - k }) ∧
    tickStep^[10] stTime
      = { addRow { stTime with timeLeft := 1 } with timeLeft := TIME_LIMIT } ∧
    (tickStep^[10] stTime).grid = (addRow stTime).grid ∧
    (tickStep^[10] stTime).timeLeft = TIME_LIMIT :=
  claim_C8_timed_expiry stTime (by decide) (by decide) (by decide) (by decide)

/-- Claim C9: toggling the id of a block not present in the grid, and
evaluating a selection that references absent ids, are no-ops: missing ids
contribute nothing to the selected blocks (hence value 0 to the sum), and the
evaluation produces the same grid and score as without the absent id. -/
theorem claim_C9_missing_ids (s : GameState) (id : Nat) (habs : id ∉ gridIds s.grid) :
    selectedBlocks { s with selectedIds := toggleSelection s.selectedIds id }
      = selectedBlocks s ∧
    selSum { s with selectedIds := toggleSelection s.selectedIds id } = selSum s ∧
    (evalStep { s with selectedIds := toggleSelection s.selectedIds id }).grid
      = (evalStep s).grid ∧
    (evalStep { s with selectedIds := toggleSelection s.selectedIds id }).score
      = (evalStep s).score := by
  have hiff : ∀ b ∈ blocksOf s.grid,
      (b.id ∈ toggleSelection s.selectedIds id ↔ b.id ∈ s.selectedIds) := by
    intro b hb
    have hne : b.id ≠ id := fun he => habs (he ▸ mem_gridIds_of_mem_blocksOf s.grid b hb)
    exact toggleSelection_mem_iff s.selectedIds id b.id hne
  have hsel := selectedBlocks_congr s (toggleSelection s.selectedIds id) hiff
  have hsum : selSum { s with selectedIds := toggleSelection s.selectedIds id } = selSum s := by
    unfold selSum
    rw [hsel]
  have hrem : removeSelected s.grid (toggleSelection s.selectedIds id)
      = removeSelected s.grid s.selectedIds :=
    removeSelected_congr _ _ _ (fun b hb => hiff b hb)
  refine ⟨hsel, hsum, ?_⟩
  by_cases h0 : selSum s = 0
  · rw [evalStep_of_zero s h0,
      evalStep_of_zero { s with selectedIds := toggleSelection s.selectedIds id }
        (by rw [hsum]; exact h0)]
    exact ⟨rfl, rfl⟩
  · by_cases hmatch : selSum s = s.target
    · rw [evalStep_of_match s hmatch h0,
        evalStep_of_match { s with selectedIds := toggleSelection s.selectedIds id }
          (by rw [hsum]; exact hmatch) (by rw [hsum]; exact h0)]
      have hmc : matchCore { { s with selectedIds := toggleSelection s.selectedIds id } with
            currentSum := selSum { s with selectedIds := toggleSelection s.selectedIds id } }
          = matchCore { s with currentSum := selSum s } := by
        unfold matchCore
        rw [hsum]
        congr 1
        · show (applyGravity (removeSelected s.grid (toggleSelection s.selectedIds id))).1
            = (applyGravity (removeSelected s.grid s.selectedIds)).1
          rw [hrem]
        · show s.score + (selectedBlocks { s with selectedIds := toggleSelection s.selectedIds id }).length * 10
            = s.score + (selectedBlocks s).length * 10
          rw [hsel]
      rw [hmc]
      exact ⟨rfl, rfl⟩
    · by_cases hover : s.target < selSum s
      · rw [evalStep_of_overshoot s hover,
          evalStep_of_overshoot { s with selectedIds := toggleSelection s.selectedIds id }
            (by rw [hsum]; exact hover)]
        exact ⟨rfl, rfl⟩
      · rw [evalStep_of_under s h0 (by omega),
          evalStep_of_under { s with selectedIds := toggleSelection s.selectedIds id }
            (by rw [hsum]; exact h0)
            (by rw [hsum]; show selSum s < s.target; omega)]
        exact ⟨rfl, rfl⟩

theorem claim_C9_witness :
    selectedBlocks { stSel with selectedIds := toggleSelection stSel.selectedIds 99 }
      = selectedBlocks stSel ∧
    selSum { stSel with selectedIds := toggleSelection stSel.selectedIds 99 } = selSum stSel ∧
    (evalStep { stSel with selectedIds := toggleSelection stSel.selectedIds 99 }).grid
      = (evalStep stSel).grid ∧
    (evalStep { stSel with selectedIds := toggleSelection stSel.selectedIds 99 }).score
      = (evalStep stSel).score :=
  claim_C9_missing_ids stSel 99 (by decide)

/-- Claim C10: while a timed-mode game is in progress, `timeLeft` stays in
`[1, 10]` and is never 0: initialization and row injection set it to 10, the
tick handler resets to 10 instead of reaching 0, and the other operations
leave it in range. -/
theorem claim_C10_timer_range (s : GameState) (m : GameMode) (id : Nat)
    (hm : s.mode = some GameMode.TIME) (h1 : 1 ≤ s.timeLeft) (h2 : s.timeLeft ≤ TIME_LIMIT) :
    (initGame m s).timeLeft = TIME_LIMIT ∧
    (1 ≤ (tickStep s).timeLeft ∧ (tickStep s).timeLeft ≤ TIME_LIMIT) ∧
    (1 ≤ (addRow s).timeLeft ∧ (addRow s).timeLeft ≤ TIME_LIMIT) ∧
    (1 ≤ (toggleEvent s id).timeLeft ∧ (toggleEvent s id).timeLeft ≤ TIME_LIMIT) ∧
    (1 ≤ (pauseStep s).timeLeft ∧ (pauseStep s).timeLeft ≤ TIME_LIMIT) := by
  have hnotclassic : ¬ s.mode = some GameMode.CLASSIC := by
    rw [hm]
    decide
  refine ⟨rfl, ?_, ?_, ?_, ⟨h1, h2⟩⟩
  · unfold tickStep
    split
    · split
      · refine ⟨?_, ?_⟩
        · show (1 : Nat) ≤ TIME_LIMIT
          decide
        · show TIME_LIMIT ≤ TIME_LIMIT
          decide
      · rename_i hgt
        refine ⟨?_, ?_⟩
        · show 1 ≤ s.timeLeft - 1
          omega
        · show s.timeLeft - 1 ≤ TIME_LIMIT
          omega
    · exact ⟨h1, h2⟩
  · rw [addRow_timeLeft_time s hm]
    exact ⟨by decide, by decide⟩
  · unfold toggleEvent
    split
    · exact ⟨h1, h2⟩
    · rw [evalStep_timeLeft_of_not_classic
        { s with selectedIds := toggleSelection s.selectedIds id } hnotclassic]
      exact ⟨h1, h2⟩

theorem claim_C10_witness :
    (initGame GameMode.TIME stTime).timeLeft = TIME_LIMIT ∧
    (1 ≤ (tickStep stTime).timeLeft ∧ (tickStep stTime).timeLeft ≤ TIME_LIMIT) ∧
    (1 ≤ (addRow stTime).timeLeft ∧ (addRow stTime).timeLeft ≤ TIME_LIMIT) ∧
    (1 ≤ (toggleEvent stTime 0).timeLeft ∧ (toggleEvent stTime 0).timeLeft ≤ TIME_LIMIT) ∧
    (1 ≤ (pauseStep stTime).timeLeft ∧ (pauseStep stTime).timeLeft ≤ TIME_LIMIT) :=
  claim_C10_timer_range stTime GameMode.TIME 0 (by decide) (by decide) (by decide)

end SumGame
